import Mathlib

/-!
Verification of the `ti` terminal pixel-graphics engine.

Shallow embedding of the source files `cell.rs`, `color.rs`, `units.rs`,
`screen.rs` and `sprite/mod.rs`.  Machine integers (`u8`, `u16`) are
modelled as `Nat` with explicit truncation (`% 256`) where the Rust code
could overflow, bitwise operators are `Nat` bitwise operators.
-/

set_option maxHeartbeats 4000000
set_option maxRecDepth 100000

namespace Ti

/-- `PIXEL_WIDTH` from `cell.rs`: a cell is 2 pixels wide. -/
def PIXEL_WIDTH : Nat := 2

/-- `PIXEL_HEIGHT` from `cell.rs`: a cell is 4 pixels tall. -/
def PIXEL_HEIGHT : Nat := 4

/-- `PIXEL_OFFSETS` from `cell.rs`. -/
def PIXEL_OFFSETS : Nat := PIXEL_WIDTH * PIXEL_HEIGHT

/-- `BRAILLE_BASE_CODEPOINT` from `cell.rs`. -/
def BRAILLE_BASE_CODEPOINT : Nat := 0x2800

/-- `BRAILLE_UTF8_BYTES` from `cell.rs`. -/
def BRAILLE_UTF8_BYTES : Nat := 3

/-- Rust `!x` on a `u8` value (bitwise complement within 8 bits). -/
def not8 (b : Nat) : Nat := (b % 256) ^^^ 255

/-- `Cell::braille_offset` from `cell.rs`: permutes the internal bit layout
into the Unicode braille codepoint offset layout. -/
def brailleOffset (bits : Nat) : Nat :=
  (bits &&& 0b11100001) ||| ((bits &&& 0b10) <<< 2) ||| ((bits &&& 0b100) >>> 1)
    ||| ((bits &&& 0b1000) <<< 1) ||| ((bits &&& 0b10000) >>> 2)

/-- The inverse bit permutation applied by `Cell::from_braille` in `cell.rs`
to a codepoint offset. -/
def fromBrailleBits (offset : Nat) : Nat :=
  (offset &&& 0b11100001) ||| ((offset &&& 0b10) <<< 1) ||| ((offset &&& 0b100) <<< 2)
    ||| ((offset &&& 0b1000) >>> 2) ||| ((offset &&& 0b10000) >>> 1)

/-- `Cell::from_braille` from `cell.rs`; the character argument is modelled
as its Unicode codepoint. -/
def fromBraille (c : Nat) : Option Nat :=
  if BRAILLE_BASE_CODEPOINT ≤ c ∧ c < BRAILLE_BASE_CODEPOINT + 256 then
    some (fromBrailleBits (c - BRAILLE_BASE_CODEPOINT))
  else
    none

/-- `Cell::to_braille_char` from `cell.rs`, as a Unicode codepoint. -/
def toBrailleChar (bits : Nat) : Nat :=
  BRAILLE_BASE_CODEPOINT + brailleOffset bits

/-- UTF-8 encoding of a codepoint in the three-byte range, as performed by
`char::encode_utf8` in the Rust standard library. -/
def encodeUtf8Three (c : Nat) : List Nat :=
  [0xE0 ||| (c >>> 12), 0x80 ||| ((c >>> 6) &&& 0x3F), 0x80 ||| (c &&& 0x3F)]

/-- `Cell::to_braille_utf8` from `cell.rs`. -/
def toBrailleUtf8 (bits : Nat) : List Nat :=
  encodeUtf8Three (toBrailleChar bits)

/-- UTF-8 decoding of a three-byte sequence per the UTF-8 specification:
a leading byte `1110xxxx` followed by two continuation bytes `10xxxxxx`,
yielding a codepoint that must be at least `U+0800` and not a surrogate. -/
def decodeUtf8Three (l : List Nat) : Option Nat :=
  match l with
  | [b0, b1, b2] =>
    if b0 >>> 4 = 0xE ∧ b1 >>> 6 = 2 ∧ b2 >>> 6 = 2 then
      let c := ((b0 &&& 0xF) <<< 12) ||| ((b1 &&& 0x3F) <<< 6) ||| (b2 &&& 0x3F)
      if 0x800 ≤ c ∧ ¬(0xD800 ≤ c ∧ c < 0xE000) then some c else none
    else none
  | _ => none

/-- `Cell::compute_x_offset` from `cell.rs`.  The left shift is truncated to
8 bits as in Rust `u8` arithmetic. -/
def computeXOffset (bits xOffset : Nat) : Nat × Nat :=
  let mask := 0b01010101
  (((bits &&& mask) <<< (PIXEL_WIDTH - xOffset)) % 256,
   (bits &&& not8 mask) >>> xOffset)

/-- `Cell::compute_y_offset` from `cell.rs`.  The left shift is truncated to
8 bits as in Rust `u8` arithmetic. -/
def computeYOffset (bits yOffset : Nat) : Nat × Nat :=
  let y := PIXEL_HEIGHT - yOffset
  let stride := PIXEL_WIDTH
  let mask := (1 <<< (stride * y)) - 1
  (((bits &&& mask) <<< (stride * (PIXEL_HEIGHT - y))) % 256,
   (bits &&& not8 mask) >>> (stride * y))

/-- `OffsetCell` from `cell.rs`. -/
inductive OffsetCell where
  | aligned (cell : Nat)
  | horizontal (left right : Nat)
  | vertical (up down : Nat)
  | corner (ul ur dl dr : Nat)
deriving DecidableEq, Repr

/-- `Cell::with_offset` from `cell.rs`.  The offsets are reduced modulo the
cell pixel dimensions; the final match arm is unreachable in the source
(`unreachable!()`) because `xOffset % 2 < 2`. -/
def withOffset (bits xOffset yOffset : Nat) : OffsetCell :=
  let x := xOffset % PIXEL_WIDTH
  let y := yOffset % PIXEL_HEIGHT
  match x, y with
  | 0, 0 => .aligned bits
  | 1, 0 =>
    let p := computeXOffset bits 1
    .horizontal p.1 p.2
  | 0, yv =>
    let p := computeYOffset bits yv
    .vertical p.1 p.2
  | 1, yv =>
    let top := computeYOffset bits yv
    let ul := computeXOffset top.1 1
    let dl := computeXOffset top.2 1
    .corner ul.1 ul.2 dl.1 dl.2
  | _, _ => .aligned bits

/-- The output cell of an `OffsetCell` at relative cell position
`(cx, cy)`, `cx < 2`, `cy < 2`: `(0,0)` is the original cell's position,
`(1,0)` its right neighbour, `(0,1)` below, `(1,1)` the diagonal.
Positions not populated by the variant are empty. -/
def OffsetCell.cellAt : OffsetCell → Nat → Nat → Nat
  | .aligned c, 0, 0 => c
  | .horizontal l _, 0, 0 => l
  | .horizontal _ r, 1, 0 => r
  | .vertical u _, 0, 0 => u
  | .vertical _ d, 0, 1 => d
  | .corner ul _ _ _, 0, 0 => ul
  | .corner _ ur _ _, 1, 0 => ur
  | .corner _ _ dl _, 0, 1 => dl
  | .corner _ _ _ dr, 1, 1 => dr
  | _, _, _ => 0

/-- Spreads the 8 bits of a cell into a 4-pixel-wide, 8-pixel-tall plane
(bit `4 * gy + gx` is the pixel at `(gx, gy)`), placing the cell at cell
position `(cx, cy)` with `cx < 2`, `cy < 2`. -/
def fieldOfCell (bits cx cy : Nat) : Nat :=
  ((bits &&& 3) <<< (4 * (4 * cy) + 2 * cx))
    ||| (((bits >>> 2) &&& 3) <<< (4 * (4 * cy + 1) + 2 * cx))
    ||| (((bits >>> 4) &&& 3) <<< (4 * (4 * cy + 2) + 2 * cx))
    ||| (((bits >>> 6) &&& 3) <<< (4 * (4 * cy + 3) + 2 * cx))

/-- All output cells of `with_offset` assembled into the 4-by-8 pixel plane,
each at its own cell position. -/
def assembledField (c dx dy : Nat) : Nat :=
  let oc := withOffset c dx dy
  fieldOfCell (oc.cellAt 0 0) 0 0 ||| fieldOfCell (oc.cellAt 1 0) 1 0
    ||| fieldOfCell (oc.cellAt 0 1) 0 1 ||| fieldOfCell (oc.cellAt 1 1) 1 1

/-- The bits of the original cell placed in the 4-by-8 pixel plane
translated by `(dx, dy)`: pixel `(x, y)` of the cell goes to plane
position `(x + dx, y + dy)`. -/
def expectedField (c dx dy : Nat) : Nat :=
  ((c &&& 3) <<< (4 * dy + dx))
    ||| (((c >>> 2) &&& 3) <<< (4 * (dy + 1) + dx))
    ||| (((c >>> 4) &&& 3) <<< (4 * (dy + 2) + dx))
    ||| (((c >>> 6) &&& 3) <<< (4 * (dy + 3) + dx))

/-- Number of set bits of an 8-bit value. -/
def popCount8 (b : Nat) : Nat :=
  (b &&& 1) + ((b >>> 1) &&& 1) + ((b >>> 2) &&& 1) + ((b >>> 3) &&& 1)
    + ((b >>> 4) &&& 1) + ((b >>> 5) &&& 1) + ((b >>> 6) &&& 1) + ((b >>> 7) &&& 1)

theorem assembledField_eq_expected : ∀ c < 256, ∀ dx < 2, ∀ dy < 4,
    assembledField c dx dy = expectedField c dx dy := by
  decide!

theorem assembledField_shift_back : ∀ c < 256, ∀ dx < 2, ∀ dy < 4,
    (assembledField c dx dy >>> (4 * dy + dx)) &&& 0x3333 = fieldOfCell c 0 0 := by
  decide!

theorem withOffset_popCount : ∀ c < 256, ∀ dx < 2, ∀ dy < 4,
    popCount8 ((withOffset c dx dy).cellAt 0 0) + popCount8 ((withOffset c dx dy).cellAt 1 0)
        + popCount8 ((withOffset c dx dy).cellAt 0 1)
        + popCount8 ((withOffset c dx dy).cellAt 1 1)
      = popCount8 c := by
  decide!

end Ti

namespace Ti

/-- C1: bit conservation under offset-split.  For every cell value
`c < 256` and offsets `dx < 2`, `dy < 4`, the output cells of
`c.with_offset(dx, dy)` (1 for Aligned, 2 for Horizontal/Vertical, 4 for
Corner; absent positions empty), assembled each at its own cell position
into a 4-wide by 8-tall pixel plane (`assembledField`):
(1) shifted back by `(-dx, -dy)` and OR-ed over the original cell's
window, reproduce `c` exactly (`fieldOfCell c 0 0` is `c` spread into the
plane at the origin cell);
(2) equal exactly the bits of `c` translated by `(dx, dy)`
(`expectedField`), so every source bit lands at exactly one plane
position and no other plane position is set — no bit is duplicated or
dropped at overlapping shifted positions;
(3) the total number of set bits across the output cells equals that of
`c`. -/
theorem withOffset_bit_conservation : ∀ c < 256, ∀ dx < 2, ∀ dy < 4,
    (assembledField c dx dy >>> (4 * dy + dx)) &&& 0x3333 = fieldOfCell c 0 0
      ∧ assembledField c dx dy = expectedField c dx dy
      ∧ popCount8 ((withOffset c dx dy).cellAt 0 0)
            + popCount8 ((withOffset c dx dy).cellAt 1 0)
            + popCount8 ((withOffset c dx dy).cellAt 0 1)
            + popCount8 ((withOffset c dx dy).cellAt 1 1)
          = popCount8 c :=
  fun c hc dx hdx dy hdy =>
    ⟨assembledField_shift_back c hc dx hdx dy hdy,
     assembledField_eq_expected c hc dx hdx dy hdy,
     withOffset_popCount c hc dx hdx dy hdy⟩

/-- Witness for C1 at `c = 255`, `dx = 1`, `dy = 3`. -/
theorem withOffset_bit_conservation_witness :
    (assembledField 255 1 3 >>> (4 * 3 + 1)) &&& 0x3333 = fieldOfCell 255 0 0
      ∧ assembledField 255 1 3 = expectedField 255 1 3
      ∧ popCount8 ((withOffset 255 1 3).cellAt 0 0)
            + popCount8 ((withOffset 255 1 3).cellAt 1 0)
            + popCount8 ((withOffset 255 1 3).cellAt 0 1)
            + popCount8 ((withOffset 255 1 3).cellAt 1 1)
          = popCount8 255 :=
  withOffset_bit_conservation 255 (by decide) 1 (by decide) 3 (by decide)

/-- C3: braille round-trip.  For every byte value `b`,
`from_braille (to_braille_char b) = some b`, the three UTF-8 bytes produced
by `to_braille_utf8` decode back to the same braille codepoint, and the
`braille_offset` and `from_braille` bit permutations are mutually inverse
(hence bijections) on `0..=255`. -/
theorem braille_round_trip : ∀ b < 256,
    fromBraille (toBrailleChar b) = some b
      ∧ decodeUtf8Three (toBrailleUtf8 b) = some (toBrailleChar b)
      ∧ fromBrailleBits (brailleOffset b) = b
      ∧ brailleOffset (fromBrailleBits b) = b := by
  decide!

/-- Witness for C3 at `b = 141`. -/
theorem braille_round_trip_witness :
    fromBraille (toBrailleChar 141) = some 141
      ∧ decodeUtf8Three (toBrailleUtf8 141) = some (toBrailleChar 141)
      ∧ fromBrailleBits (brailleOffset 141) = 141
      ∧ brailleOffset (fromBrailleBits 141) = 141 :=
  braille_round_trip 141 (by decide)

/-- C6 counterexample: the cell with only the top-left (even-column) pixel
set, shifted horizontally by one, produces `Horizontal { left := 2,
right := 0 }`: the even-column bit lands in the *left* output cell (at its
odd column), and the right output cell is empty — contradicting the claim
that even-column bits move into the right output cell's even columns. -/
theorem withOffset_horizontal_counterexample :
    OffsetCell.cellAt (withOffset 1 1 0) 1 0 = 0
      ∧ OffsetCell.cellAt (withOffset 1 1 0) 0 0 = 2
      ∧ Nat.testBit (OffsetCell.cellAt (withOffset 1 1 0) 1 0) 0 = false := by
  decide!

/-- C6 (amended): for every cell `c`, `c.with_offset(1, 0)` returns
`Horizontal { left, right }` in which each even-column bit of `c` moves
right by one pixel into the *left* output cell's odd columns, and each
odd-column bit of `c` moves right by one pixel into the *right* output
cell's even columns; the left cell's even columns and the right cell's odd
columns are empty. -/
theorem withOffset_horizontal_split : ∀ c < 256,
    withOffset c 1 0
        = OffsetCell.horizontal (((c &&& 0b01010101) <<< 1) % 256)
            ((c &&& 0b10101010) >>> 1)
      ∧ ∀ y < 4,
          Nat.testBit (OffsetCell.cellAt (withOffset c 1 0) 0 0) (2 * y + 1)
              = Nat.testBit c (2 * y)
            ∧ Nat.testBit (OffsetCell.cellAt (withOffset c 1 0) 0 0) (2 * y)
              = false
            ∧ Nat.testBit (OffsetCell.cellAt (withOffset c 1 0) 1 0) (2 * y)
              = Nat.testBit c (2 * y + 1)
            ∧ Nat.testBit (OffsetCell.cellAt (withOffset c 1 0) 1 0) (2 * y + 1)
              = false := by
  decide!

/-- Witness for the amended C6 at `c = 129`, `y = 0`. -/
theorem withOffset_horizontal_split_witness :
    (withOffset 129 1 0
        = OffsetCell.horizontal (((129 &&& 0b01010101) <<< 1) % 256)
            ((129 &&& 0b10101010) >>> 1))
      ∧ (Nat.testBit (OffsetCell.cellAt (withOffset 129 1 0) 0 0) (2 * 0 + 1)
            = Nat.testBit 129 (2 * 0)
          ∧ Nat.testBit (OffsetCell.cellAt (withOffset 129 1 0) 0 0) (2 * 0)
            = false
          ∧ Nat.testBit (OffsetCell.cellAt (withOffset 129 1 0) 1 0) (2 * 0)
            = Nat.testBit 129 (2 * 0 + 1)
          ∧ Nat.testBit (OffsetCell.cellAt (withOffset 129 1 0) 1 0) (2 * 0 + 1)
            = false) :=
  ⟨(withOffset_horizontal_split 129 (by decide)).1,
   (withOffset_horizontal_split 129 (by decide)).2 0 (by decide)⟩

end Ti

namespace Ti

/-- The `RGB` scale constant from `color.rs`. -/
def RGB : List Nat := [0, 95, 135, 175, 215, 255]

/-- The `GREYSCALE` scale constant from `color.rs`: value `i * 10 + 8` at
step `i`, for 24 steps. -/
def GREYSCALE : List Nat := (List.range 24).map (fun i => i * 10 + 8)

/-- `interpolate_component` from `color.rs`: picks the index of the scale
value closest to `target` (first scans for the first scale value that is
at least `target`, falling back to the last index). -/
def interpolateComponent (scale : List Nat) (target : Nat) : Nat :=
  let nextAnsi := (scale.findIdx? (fun next => target ≤ next)).getD (scale.length - 1)
  let next := scale.getD nextAnsi 0
  if next ≤ target then nextAnsi
  else if nextAnsi = 0 then nextAnsi
  else
    let prevAnsi := nextAnsi - 1
    let prev := scale.getD prevAnsi 0
    if target - prev > next - target then nextAnsi else prevAnsi

/-- `Color::from_ansi_components` from `color.rs`. -/
def fromAnsiComponents (r g b : Nat) : Nat :=
  min r 5 * 36 + min g 5 * 6 + min b 5 + 16

/-- `Color::from_ansi_greyscale` from `color.rs`. -/
def fromAnsiGreyscale (step : Nat) : Nat :=
  232 + min step 23

/-- The table of approximate RGB triplets for the 16 ANSI standard colors,
from the first 16 match arms of `Color::to_rgb_approximate` in
`color.rs`. -/
def standardRgb : List (Nat × Nat × Nat) :=
  [(0, 0, 0), (128, 0, 0), (0, 128, 0), (128, 128, 0),
   (0, 0, 128), (128, 0, 128), (0, 128, 128), (192, 192, 192),
   (128, 128, 128), (255, 0, 0), (0, 255, 0), (255, 255, 0),
   (0, 0, 255), (255, 0, 255), (0, 255, 255), (255, 255, 255)]

/-- `Color::to_rgb_approximate` from `color.rs` (for 8-bit color values):
standard colors by table, `16..=231` through the 6-by-6-by-6 RGB cube,
`232..=255` through the greyscale ramp. -/
def toRgbApproximate (c : Nat) : Nat × Nat × Nat :=
  if c < 16 then
    standardRgb.getD c (0, 0, 0)
  else if c ≤ 231 then
    let offset := c - 16
    (RGB.getD (offset / 36 % 6) 0, RGB.getD (offset / 6 % 6) 0, RGB.getD (offset % 6) 0)
  else
    let step := c - 232
    (GREYSCALE.getD step 0, GREYSCALE.getD step 0, GREYSCALE.getD step 0)

/-- C7 counterexample: the target value 155 lies exactly equidistant
between the adjacent RGB scale values 135 (index 2) and 175 (index 3),
yet `interpolate_component` returns index 2 — the *smaller* scale value,
not the larger one as the claim states. -/
theorem interpolate_tie_counterexample :
    RGB.getD 2 0 = 135 ∧ RGB.getD 3 0 = 175
      ∧ RGB.getD 2 0 + RGB.getD 3 0 = 2 * 155
      ∧ interpolateComponent RGB 155 = 2 := by
  decide!

/-- C7 (amended): in the per-channel nearest-scale-value search used by
`Color::from_rgb_approximate` (`interpolate_component` over the 6-value
RGB scale and the 24-value greyscale scale), every target byte lying
exactly equidistant between two adjacent scale values selects the
*smaller* of the two scale values (the lower index). -/
theorem interpolate_tie_smaller : ∀ t < 256,
    (∀ i < 5, RGB.getD i 0 + RGB.getD (i + 1) 0 = 2 * t →
      interpolateComponent RGB t = i)
      ∧ (∀ i < 23, GREYSCALE.getD i 0 + GREYSCALE.getD (i + 1) 0 = 2 * t →
          interpolateComponent GREYSCALE t = i) := by
  decide!

/-- Witness for the amended C7 at the RGB tie point `t = 155` between
indices 2 and 3, and the greyscale tie point `t = 63` between indices 5
and 6. -/
theorem interpolate_tie_smaller_witness :
    interpolateComponent RGB 155 = 2 ∧ interpolateComponent GREYSCALE 63 = 5 :=
  ⟨(interpolate_tie_smaller 155 (by decide)).1 2 (by decide) (by decide),
   (interpolate_tie_smaller 63 (by decide)).2 5 (by decide) (by decide)⟩

/-- C8: exact color round-trip on the representable points.  For all
`r, g, b` in `0..=5`, `from_ansi_components(r, g, b).to_rgb_approximate()`
returns the scale-table triplet `(S[r], S[g], S[b])` over the fixed scale
`[0, 95, 135, 175, 215, 255]`; and for every step `s` in `0..=23`,
`from_ansi_greyscale(s).to_rgb_approximate()` returns
`(10 s + 8, 10 s + 8, 10 s + 8)`. -/
theorem color_round_trip_exact :
    (∀ r < 6, ∀ g < 6, ∀ b < 6,
      toRgbApproximate (fromAnsiComponents r g b)
        = (RGB.getD r 0, RGB.getD g 0, RGB.getD b 0))
      ∧ (∀ s < 24,
          toRgbApproximate (fromAnsiGreyscale s) = (10 * s + 8, 10 * s + 8, 10 * s + 8)) := by
  constructor
  · decide!
  · decide!

/-- Witness for C8 at `(r, g, b) = (1, 2, 4)` and `s = 7`. -/
theorem color_round_trip_exact_witness :
    toRgbApproximate (fromAnsiComponents 1 2 4)
        = (RGB.getD 1 0, RGB.getD 2 0, RGB.getD 4 0)
      ∧ toRgbApproximate (fromAnsiGreyscale 7) = (10 * 7 + 8, 10 * 7 + 8, 10 * 7 + 8) :=
  ⟨color_round_trip_exact.1 1 (by decide) 2 (by decide) 4 (by decide),
   color_round_trip_exact.2 7 (by decide)⟩

end Ti

namespace Ti

/-- `Blit` from `screen.rs`. -/
inductive Blit where
  | set
  | unset
  | add
  | subtract
  | toggle
deriving DecidableEq, Repr

/-- `Priority<T>` from `screen.rs`, with the payload modelled as a `Nat`
(it is used with `T = Cell` and `T = Color`, both of which the Rust code
compares by the wrapped numeric value). -/
structure PriorityVal where
  value : Nat
  priority : Nat
deriving DecidableEq, Repr

/-- The `Ord` implementation for `Priority<T>` in `screen.rs`: priority is
compared first, ties fall through to the value. -/
def priorityCmp (a b : PriorityVal) : Ordering :=
  (compare a.priority b.priority).then (compare a.value b.value)

/-- Rust `Ord::max`: returns the second argument unless the first compares
strictly greater. -/
def priorityMax (a b : PriorityVal) : PriorityVal :=
  match priorityCmp a b with
  | .gt => a
  | _ => b

/-- `index` from `units.rs`: row-major array index of cell `(x, y)`. -/
def indexOf (x y width : Nat) : Nat := y * width + x

/-- `from_index` from `units.rs`: cell position of an array index. -/
def fromIndexOf (i width : Nat) : Nat × Nat := (i % width, i / width)

/-- `Screen` from `screen.rs`: parallel row-major arrays of cells, deltas
and colors, plus the dimensions in cells. -/
structure Screen where
  cells : List Nat
  deltas : List (Option PriorityVal)
  colors : List (Option PriorityVal)
  width : Nat
  height : Nat
deriving DecidableEq, Repr

/-- The `match blit` arm computing the new cell value in
`Screen::draw_cell`. -/
def applyBlit (blit : Blit) (previous cell : Nat) : Nat :=
  match blit with
  | .set => cell
  | .unset => not8 cell
  | .add => previous ||| cell
  | .subtract => previous &&& not8 cell
  | .toggle => previous ^^^ cell

/-- `Screen::draw_cell` from `screen.rs`. -/
def drawCell (s : Screen) (cell x y : Nat) (blit : Blit) (priority : Nat) :
    Bool × Screen :=
  if x < s.width ∧ y < s.height then
    let i := indexOf x y s.width
    let previousCell := s.cells.getD i 0
    let newCell := applyBlit blit previousCell cell
    let np : PriorityVal := ⟨newCell, priority⟩
    let newDelta :=
      match blit with
      | .set | .unset =>
        match s.deltas.getD i none with
        | some previous => some (priorityMax previous np)
        | none => some np
      | _ => some np
    (true, { s with cells := s.cells.set i newCell, deltas := s.deltas.set i newDelta })
  else
    (false, s)

/-- `Screen::draw_cell_color` from `screen.rs`. -/
def drawCellColor (s : Screen) (color x y priority : Nat) : Bool × Screen :=
  if x < s.width ∧ y < s.height then
    let i := indexOf x y s.width
    let nc : PriorityVal := ⟨color, priority⟩
    let newColor :=
      match s.colors.getD i none with
      | some previous => some (priorityMax previous nc)
      | none => some nc
    (true, { s with colors := s.colors.set i newColor })
  else
    (false, s)

theorem indexOf_lt {x y w : Nat} (h : Nat) (hx : x < w) (hy : y < h) :
    indexOf x y w < w * h := by
  unfold indexOf
  calc y * w + x < (y + 1) * w := by rw [Nat.succ_mul]; omega
  _ ≤ h * w := Nat.mul_le_mul_right w hy
  _ = w * h := Nat.mul_comm h w

theorem getD_set_self {α : Type} (l : List α) (i : Nat) (v d : α)
    (h : i < l.length) : (l.set i v).getD i d = v := by
  simp [List.getElem?_set_self h]

theorem getD_set_ne {α : Type} (l : List α) (i j : Nat) (v d : α)
    (h : i ≠ j) : (l.set i v).getD j d = l.getD j d := by
  simp [List.getElem?_set_ne h]

theorem priorityMax_of_gt (a b : PriorityVal) (h : b.priority < a.priority) :
    priorityMax a b = a := by
  unfold priorityMax priorityCmp
  rw [Nat.compare_eq_gt.2 h]
  rfl

theorem priorityMax_of_lt (a b : PriorityVal) (h : a.priority < b.priority) :
    priorityMax a b = b := by
  unfold priorityMax priorityCmp
  rw [Nat.compare_eq_lt.2 h]
  rfl

theorem priorityMax_same_priority (c1 c2 p : Nat) :
    priorityMax ⟨c1, p⟩ ⟨c2, p⟩ = ⟨max c1 c2, p⟩ := by
  unfold priorityMax priorityCmp
  rw [Nat.compare_eq_eq.2 rfl]
  rcases Nat.lt_trichotomy c1 c2 with h | h | h
  · rw [Nat.compare_eq_lt.2 h]
    simp [Ordering.then, Nat.max_eq_right (Nat.le_of_lt h)]
  · rw [h, Nat.compare_eq_eq.2 rfl]
    simp [Ordering.then]
  · rw [Nat.compare_eq_gt.2 h]
    simp [Ordering.then, Nat.max_eq_left (Nat.le_of_lt h)]

end Ti

namespace Ti

/-- C4: delta recording in `Screen::draw_cell` is asymmetric by blit mode.
At an in-bounds position whose delta slot already holds `prev` this frame:
for `Set`/`Unset` a write at lower priority still mutates the live cell to
the blit result but leaves the stored delta unchanged, while a write at
higher priority replaces the delta with the new result; for
`Add`/`Subtract`/`Toggle` the delta is always overwritten with the latest
resulting cell unconditionally. -/
theorem drawCell_delta_asymmetry (s : Screen) (cell x y p : Nat) (blit : Blit)
    (prev : PriorityVal) (hx : x < s.width) (hy : y < s.height)
    (hdl : s.deltas.length = s.width * s.height)
    (hcl : s.cells.length = s.width * s.height)
    (hprev : s.deltas.getD (indexOf x y s.width) none = some prev) :
    ((blit = .set ∨ blit = .unset) → p < prev.priority →
      (drawCell s cell x y blit p).2.deltas.getD (indexOf x y s.width) none = some prev
        ∧ (drawCell s cell x y blit p).2.cells.getD (indexOf x y s.width) 0
            = applyBlit blit (s.cells.getD (indexOf x y s.width) 0) cell)
      ∧ ((blit = .set ∨ blit = .unset) → prev.priority < p →
          (drawCell s cell x y blit p).2.deltas.getD (indexOf x y s.width) none
            = some ⟨applyBlit blit (s.cells.getD (indexOf x y s.width) 0) cell, p⟩)
      ∧ ((blit = .add ∨ blit = .subtract ∨ blit = .toggle) →
          (drawCell s cell x y blit p).2.deltas.getD (indexOf x y s.width) none
            = some ⟨applyBlit blit (s.cells.getD (indexOf x y s.width) 0) cell, p⟩) := by
  have hi : indexOf x y s.width < s.width * s.height := indexOf_lt s.height hx hy
  simp only [drawCell, if_pos (And.intro hx hy), hprev]
  refine ⟨fun hb hp => ?_, fun hb hp => ?_, fun hb => ?_⟩
  · rcases hb with hb | hb <;> subst hb <;>
      constructor <;>
      simp [getD_set_self, hdl ▸ hi, hcl ▸ hi,
        priorityMax_of_gt prev ⟨_, p⟩ hp]
  · rcases hb with hb | hb <;> subst hb <;>
      simp [getD_set_self, hdl ▸ hi,
        priorityMax_of_lt prev ⟨_, p⟩ hp]
  · rcases hb with hb | hb | hb <;> subst hb <;>
      simp [getD_set_self, hdl ▸ hi]

end Ti

namespace Ti

/-- Witness for C4 on a 1-by-1 screen whose delta slot holds value 7 at
priority 5: a later `Set` at priority 2 leaves the delta untouched while
mutating the live cell. -/
theorem drawCell_delta_asymmetry_witness :
    (drawCell ⟨[0], [some ⟨7, 5⟩], [none], 1, 1⟩ 3 0 0 .set 2).2.deltas.getD
        (indexOf 0 0 (Screen.mk [0] [some ⟨7, 5⟩] [none] 1 1).width) none = some ⟨7, 5⟩
      ∧ (drawCell ⟨[0], [some ⟨7, 5⟩], [none], 1, 1⟩ 3 0 0 .set 2).2.cells.getD
          (indexOf 0 0 (Screen.mk [0] [some ⟨7, 5⟩] [none] 1 1).width) 0
        = applyBlit .set
            ((Screen.mk [0] [some ⟨7, 5⟩] [none] 1 1).cells.getD
              (indexOf 0 0 (Screen.mk [0] [some ⟨7, 5⟩] [none] 1 1).width) 0) 3 :=
  (drawCell_delta_asymmetry ⟨[0], [some ⟨7, 5⟩], [none], 1, 1⟩ 3 0 0 2 .set ⟨7, 5⟩
      (by decide) (by decide) (by decide) (by decide) (by decide)).1
    (Or.inl rfl) (by decide)

/-- C5 counterexample: two same-frame `draw_cell_color` calls at the same
cell with *equal* priority: the first writes color 1, the second color 2.
The recorded color is 2 — the numerically larger value written *second* —
so the first writer does not win the tie as the claim states. -/
theorem drawCellColor_tie_counterexample :
    (drawCellColor (drawCellColor ⟨[0], [none], [none], 1, 1⟩ 1 0 0 0).2
          2 0 0 0).2.colors.getD 0 none = some ⟨2, 0⟩
      ∧ (2 : Nat) ≠ 1 := by
  decide!

/-- C5 (amended): `Screen::draw_cell_color` resolves same-frame conflicts
at a cell by the pair (priority, color value): for two calls with
priorities `p1 < p2` the color written at `p2` is recorded regardless of
call order, but for two calls with *equal* priority the recorded color is
the numerically larger of the two color values (not the first one
written; the first writer is kept only when it compares at least as
large). -/
theorem drawCellColor_priority (s : Screen) (c1 c2 x y p1 p2 : Nat)
    (hx : x < s.width) (hy : y < s.height)
    (hcl : s.colors.length = s.width * s.height)
    (h0 : s.colors.getD (indexOf x y s.width) none = none) :
    (p1 < p2 →
      (drawCellColor (drawCellColor s c1 x y p1).2 c2 x y p2).2.colors.getD
          (indexOf x y s.width) none = some ⟨c2, p2⟩
        ∧ (drawCellColor (drawCellColor s c2 x y p2).2 c1 x y p1).2.colors.getD
            (indexOf x y s.width) none = some ⟨c2, p2⟩)
      ∧ (p1 = p2 →
          (drawCellColor (drawCellColor s c1 x y p1).2 c2 x y p2).2.colors.getD
              (indexOf x y s.width) none = some ⟨max c1 c2, p2⟩) := by
  have hi : indexOf x y s.width < s.width * s.height := indexOf_lt s.height hx hy
  constructor
  · intro hp
    constructor
    · simp only [drawCellColor, if_pos (And.intro hx hy), h0]
      simp [getD_set_self, hcl ▸ hi, priorityMax_of_lt ⟨c1, p1⟩ ⟨c2, p2⟩ hp]
    · simp only [drawCellColor, if_pos (And.intro hx hy), h0]
      simp [getD_set_self, hcl ▸ hi, priorityMax_of_gt ⟨c2, p2⟩ ⟨c1, p1⟩ hp]
  · intro hp
    subst hp
    simp only [drawCellColor, if_pos (And.intro hx hy), h0]
    simp [getD_set_self, hcl ▸ hi, priorityMax_same_priority c1 c2 p1]

/-- Witness for the amended C5 on a 1-by-1 screen: colors 1 then 2 at
priorities 0 then 3 record color 2, and equal priorities record the
larger color. -/
theorem drawCellColor_priority_witness :
    ((drawCellColor (drawCellColor ⟨[0], [none], [none], 1, 1⟩ 1 0 0 0).2
          2 0 0 3).2.colors.getD
        (indexOf 0 0 (Screen.mk [0] [none] [none] 1 1).width) none = some ⟨2, 3⟩
      ∧ (drawCellColor (drawCellColor ⟨[0], [none], [none], 1, 1⟩ 2 0 0 3).2
            1 0 0 0).2.colors.getD
          (indexOf 0 0 (Screen.mk [0] [none] [none] 1 1).width) none = some ⟨2, 3⟩) :=
  (drawCellColor_priority ⟨[0], [none], [none], 1, 1⟩ 1 2 0 0 0 3
      (by decide) (by decide) (by decide) (by decide)).1 (by decide)

end Ti

namespace Ti

/-- `ColoredCell` from `color.rs`: a cell with optional color. -/
structure ColoredCell where
  cell : Nat
  color : Option Nat
deriving DecidableEq, Repr

/-- Modelled from the spec: the two-argument colored variant of
`ColoredCell::merge_cell` called by `Sprite::new` in `sprite/mod.rs` is
not defined under `src/` (the one-argument variant in `color.rs` merges
the pixel data with a bitwise OR).  Bits are OR-ed as in `color.rs`; the
color of the merging operand wins when present, per the spec's
"color of the merging operand wins (last-write-wins)". -/
def mergeCell (c : ColoredCell) (cell : Nat) (color : Option Nat) : ColoredCell :=
  { cell := c.cell ||| cell,
    color := match color with
      | some v => some v
      | none => c.color }

/-- `px_offset` from `units.rs`. -/
def pxOffset (x y : Nat) : Nat := PIXEL_WIDTH * y + x

/-- `offset_px` from `units.rs`. -/
def offsetPx (offset : Nat) : Nat × Nat := (offset % PIXEL_WIDTH, offset / PIXEL_WIDTH)

/-- `cell_length` from `units.rs`. -/
def cellLength (width height : Nat) : Nat := width * height

/-- `Sprite` from `sprite/mod.rs`: the eight per-offset grids of colored
cells, dimensions in cells, and the draw priority. -/
structure Sprite where
  offsets : List (List ColoredCell)
  width : Nat
  height : Nat
  priority : Nat
deriving DecidableEq, Repr

/-- `Sprite::offset_size` from `sprite/mod.rs`. -/
def offsetSize (sp : Sprite) (offset : Nat) : Nat × Nat :=
  let p := offsetPx offset
  ((if p.1 ≠ 0 then 1 else 0) + sp.width, (if p.2 ≠ 0 then 1 else 0) + sp.height)

/-- `Sprite::index` from `sprite/mod.rs`: row-major indexing by the
offset grid's own width. -/
def spriteIndex (sp : Sprite) (x y offset : Nat) : Nat :=
  indexOf x y (offsetSize sp offset).1

/-- `Sprite::from_index` from `sprite/mod.rs`. -/
def spriteFromIndex (sp : Sprite) (i offset : Nat) : Nat × Nat :=
  fromIndexOf i (offsetSize sp offset).1

/-- One merge of `Sprite::new`: OR the given split cell into the grid at
index `i`, carrying the source color. -/
def mergeAt (buf : List ColoredCell) (i cell : Nat) (color : Option Nat) :
    List ColoredCell :=
  buf.set i (mergeCell (buf.getD i ⟨0, none⟩) cell color)

/-- The loop body of `Sprite::new` from `sprite/mod.rs` for one source
cell `(x, y)` of one offset grid (`W` is the offset grid's own width). -/
def spriteNewStep (data : List ColoredCell) (w W dx dy : Nat)
    (buf : List ColoredCell) (x y : Nat) : List ColoredCell :=
  let cc := data.getD (indexOf x y w) ⟨0, none⟩
  match withOffset cc.cell dx dy with
  | .aligned c => mergeAt buf (indexOf x y W) c cc.color
  | .horizontal l r =>
    mergeAt (mergeAt buf (indexOf x y W) l cc.color) (indexOf (x + 1) y W) r cc.color
  | .vertical u d =>
    mergeAt (mergeAt buf (indexOf x y W) u cc.color) (indexOf x (y + 1) W) d cc.color
  | .corner ul ur dl dr =>
    mergeAt (mergeAt (mergeAt (mergeAt buf (indexOf x y W) ul cc.color)
      (indexOf (x + 1) y W) ur cc.color) (indexOf x (y + 1) W) dl cc.color)
      (indexOf (x + 1) (y + 1) W) dr cc.color

/-- One offset grid built by `Sprite::new` from `sprite/mod.rs`: the grid
is first sized to the offset dimensions filled with default cells (via
`Sprite::empty` plus the `resize`), then every source cell's offset split
is merged in, scanning rows outward. -/
def spriteNewGrid (data : List ColoredCell) (w h dx dy : Nat) : List ColoredCell :=
  let W := (if dx ≠ 0 then 1 else 0) + w
  let H := (if dy ≠ 0 then 1 else 0) + h
  (List.range h).foldl
    (fun buf y =>
      (List.range w).foldl (fun buf x => spriteNewStep data w W dx dy buf x y) buf)
    (List.replicate (cellLength W H) ⟨0, none⟩)

/-- `Sprite::new` from `sprite/mod.rs`: precomputes all eight offset
grids, offset `o` having pixel offset components `(o % 2, o / 2)`. -/
def spriteNew (data : List ColoredCell) (w h priority : Nat) : Sprite :=
  { offsets := (List.range 8).map (fun o => spriteNewGrid data w h (o % 2) (o / 2)),
    width := w,
    height := h,
    priority := priority }

/-- The fold step of `Screen::draw_sprite` from `screen.rs`: the boolean
accumulator collects `acc & drawn & colored`, the screen is threaded
through; empty cells are skipped. -/
def drawSpriteStep (sp : Sprite) (dxCell dyCell offset : Nat) (blit : Blit)
    (acc : Bool × Screen) (p : Nat × ColoredCell) : Bool × Screen :=
  let pos := spriteFromIndex sp p.1 offset
  let x := pos.1 + dxCell
  let y := pos.2 + dyCell
  if p.2.cell ≠ 0 then
    let d1 := drawCell acc.2 p.2.cell x y blit sp.priority
    match p.2.color with
    | some color =>
      let d2 := drawCellColor d1.2 color x y sp.priority
      (acc.1 && d1.1 && d2.1, d2.2)
    | none => (acc.1 && d1.1, d1.2)
  else acc

/-- `Screen::draw_sprite` from `screen.rs`. -/
def drawSprite (s : Screen) (sp : Sprite) (xPixel yPixel : Nat) (blit : Blit) :
    Bool × Screen :=
  let dxCell := xPixel / PIXEL_WIDTH
  let xPx := xPixel % PIXEL_WIDTH
  let dyCell := yPixel / PIXEL_HEIGHT
  let yPx := yPixel % PIXEL_HEIGHT
  let offset := pxOffset xPx yPx
  let data := sp.offsets.getD offset []
  data.enum.foldl (drawSpriteStep sp dxCell dyCell offset blit) (true, s)

/-- Drawing one constituent cell of a sprite individually (the state
effect of `drawSpriteStep`, without the success accumulator). -/
def drawSpriteCellStep (sp : Sprite) (dxCell dyCell offset : Nat) (blit : Blit)
    (sc : Screen) (p : Nat × ColoredCell) : Screen :=
  let pos := spriteFromIndex sp p.1 offset
  let x := pos.1 + dxCell
  let y := pos.2 + dyCell
  if p.2.cell ≠ 0 then
    let s1 := (drawCell sc p.2.cell x y blit sp.priority).2
    match p.2.color with
    | some color => (drawCellColor s1 color x y sp.priority).2
    | none => s1
  else sc

/-- Drawing every constituent cell of a sprite's offset grid
individually, in grid order. -/
def drawSpriteCells (s : Screen) (sp : Sprite) (xPixel yPixel : Nat) (blit : Blit) :
    Screen :=
  (sp.offsets.getD (pxOffset (xPixel % PIXEL_WIDTH) (yPixel % PIXEL_HEIGHT)) []).enum.foldl
    (drawSpriteCellStep sp (xPixel / PIXEL_WIDTH) (yPixel / PIXEL_HEIGHT)
      (pxOffset (xPixel % PIXEL_WIDTH) (yPixel % PIXEL_HEIGHT)) blit)
    s

theorem drawCell_width (s : Screen) (c x y : Nat) (blit : Blit) (p : Nat) :
    (drawCell s c x y blit p).2.width = s.width := by
  unfold drawCell
  split <;> rfl

theorem drawCell_height (s : Screen) (c x y : Nat) (blit : Blit) (p : Nat) :
    (drawCell s c x y blit p).2.height = s.height := by
  unfold drawCell
  split <;> rfl

theorem drawCellColor_width (s : Screen) (c x y p : Nat) :
    (drawCellColor s c x y p).2.width = s.width := by
  unfold drawCellColor
  split <;> rfl

theorem drawCellColor_height (s : Screen) (c x y p : Nat) :
    (drawCellColor s c x y p).2.height = s.height := by
  unfold drawCellColor
  split <;> rfl

theorem drawCell_fst (s : Screen) (c x y : Nat) (blit : Blit) (p : Nat) :
    (drawCell s c x y blit p).1 = (decide (x < s.width) && decide (y < s.height)) := by
  unfold drawCell
  split
  · next h => simp [h.1, h.2]
  · next h =>
    have h' : ¬x < s.width ∨ ¬y < s.height := by tauto
    rcases h' with h' | h' <;> simp [h']

theorem drawCellColor_fst (s : Screen) (c x y p : Nat) :
    (drawCellColor s c x y p).1 = (decide (x < s.width) && decide (y < s.height)) := by
  unfold drawCellColor
  split
  · next h => simp [h.1, h.2]
  · next h =>
    have h' : ¬x < s.width ∨ ¬y < s.height := by tauto
    rcases h' with h' | h' <;> simp [h']

theorem drawSpriteCellStep_width (sp : Sprite) (dxCell dyCell offset : Nat)
    (blit : Blit) (sc : Screen) (p : Nat × ColoredCell) :
    (drawSpriteCellStep sp dxCell dyCell offset blit sc p).width = sc.width := by
  unfold drawSpriteCellStep
  split
  · rcases p.2.color with _ | color <;> simp [drawCell_width, drawCellColor_width]
  · rfl

theorem drawSpriteCellStep_height (sp : Sprite) (dxCell dyCell offset : Nat)
    (blit : Blit) (sc : Screen) (p : Nat × ColoredCell) :
    (drawSpriteCellStep sp dxCell dyCell offset blit sc p).height = sc.height := by
  unfold drawSpriteCellStep
  split
  · rcases p.2.color with _ | color <;> simp [drawCell_height, drawCellColor_height]
  · rfl

theorem drawSpriteStep_snd (sp : Sprite) (dxCell dyCell offset : Nat) (blit : Blit)
    (acc : Bool × Screen) (p : Nat × ColoredCell) :
    (drawSpriteStep sp dxCell dyCell offset blit acc p).2
      = drawSpriteCellStep sp dxCell dyCell offset blit acc.2 p := by
  unfold drawSpriteStep drawSpriteCellStep
  split
  · rcases p.2.color with _ | color <;> simp
  · rfl

theorem drawSpriteStep_fst (sp : Sprite) (dxCell dyCell offset : Nat) (blit : Blit)
    (acc : Bool × Screen) (p : Nat × ColoredCell) :
    (drawSpriteStep sp dxCell dyCell offset blit acc p).1
      = (acc.1
          && (p.2.cell == 0
            || (decide ((spriteFromIndex sp p.1 offset).1 + dxCell < acc.2.width)
              && decide ((spriteFromIndex sp p.1 offset).2 + dyCell < acc.2.height)))) := by
  unfold drawSpriteStep
  split
  · next hne =>
    have hc : (p.2.cell == 0) = false := by simpa using hne
    rcases hcol : p.2.color with _ | color
    · simp [hcol, drawCell_fst, hc]
    · simp [hcol, drawCell_fst, drawCellColor_fst, drawCell_width, drawCell_height, hc,
        Bool.and_assoc, Bool.and_comm, Bool.and_self]
      cases acc.1 <;>
        cases hd1 : decide ((spriteFromIndex sp p.1 offset).1 + dxCell < acc.2.width) <;>
        cases hd2 : decide ((spriteFromIndex sp p.1 offset).2 + dyCell < acc.2.height) <;>
        simp
  · next hne =>
    have hc : (p.2.cell == 0) = true := by simpa using hne
    simp [hc]

theorem drawSprite_foldl_snd (sp : Sprite) (dxCell dyCell offset : Nat) (blit : Blit) :
    ∀ (L : List (Nat × ColoredCell)) (acc : Bool × Screen),
      (L.foldl (drawSpriteStep sp dxCell dyCell offset blit) acc).2
        = L.foldl (drawSpriteCellStep sp dxCell dyCell offset blit) acc.2 := by
  intro L
  induction L with
  | nil => intro acc; rfl
  | cons p L ih =>
    intro acc
    simp only [List.foldl_cons]
    rw [ih, drawSpriteStep_snd]

theorem drawSprite_foldl_fst (sp : Sprite) (dxCell dyCell offset : Nat) (blit : Blit) :
    ∀ (L : List (Nat × ColoredCell)) (acc : Bool × Screen),
      (L.foldl (drawSpriteStep sp dxCell dyCell offset blit) acc).1
        = (acc.1
            && L.all (fun p =>
              p.2.cell == 0
                || (decide ((spriteFromIndex sp p.1 offset).1 + dxCell < acc.2.width)
                  && decide ((spriteFromIndex sp p.1 offset).2 + dyCell < acc.2.height)))) := by
  intro L
  induction L with
  | nil => intro acc; simp
  | cons p L ih =>
    intro acc
    simp only [List.foldl_cons]
    rw [ih]
    rw [drawSpriteStep_snd, drawSpriteStep_fst]
    rw [drawSpriteCellStep_width, drawSpriteCellStep_height]
    simp [Bool.and_assoc]

end Ti

namespace Ti

/-- C9: out-of-bounds drawing is a reported no-op.
(1) `Screen::draw_cell` at a position with `x ≥ width` or `y ≥ height`
returns `false` and leaves the screen (cells, deltas and colors) entirely
unchanged.
(2) `Screen::draw_sprite` produces exactly the screen obtained by drawing
each constituent cell of the selected offset grid individually in grid
order (so a failing out-of-bounds cell never prevents the remaining
in-bounds cells from being updated).
(3) `Screen::draw_sprite` returns `true` iff every non-empty constituent
cell's target position is in bounds — a sprite that partly falls outside
the screen yields `false` without short-circuiting. -/
theorem drawSprite_out_of_bounds :
    (∀ (s : Screen) (cell x y : Nat) (blit : Blit) (p : Nat),
        s.width ≤ x ∨ s.height ≤ y → drawCell s cell x y blit p = (false, s))
      ∧ (∀ (s : Screen) (sp : Sprite) (xPixel yPixel : Nat) (blit : Blit),
          (drawSprite s sp xPixel yPixel blit).2 = drawSpriteCells s sp xPixel yPixel blit)
      ∧ (∀ (s : Screen) (sp : Sprite) (xPixel yPixel : Nat) (blit : Blit),
          (drawSprite s sp xPixel yPixel blit).1
            = (sp.offsets.getD (pxOffset (xPixel % PIXEL_WIDTH) (yPixel % PIXEL_HEIGHT))
                  []).enum.all
                (fun p =>
                  p.2.cell == 0
                    || (decide
                        ((spriteFromIndex sp p.1
                            (pxOffset (xPixel % PIXEL_WIDTH) (yPixel % PIXEL_HEIGHT))).1
                          + xPixel / PIXEL_WIDTH < s.width)
                      && decide
                        ((spriteFromIndex sp p.1
                            (pxOffset (xPixel % PIXEL_WIDTH) (yPixel % PIXEL_HEIGHT))).2
                          + yPixel / PIXEL_HEIGHT < s.height)))) := by
  refine ⟨fun s cell x y blit p h => ?_, fun s sp xPixel yPixel blit => ?_,
    fun s sp xPixel yPixel blit => ?_⟩
  · unfold drawCell
    rw [if_neg (by omega)]
  · unfold drawSprite drawSpriteCells
    exact drawSprite_foldl_snd sp _ _ _ blit _ (true, s)
  · unfold drawSprite
    rw [drawSprite_foldl_fst]
    simp

/-- Witness for C9: drawing at `x = 5` on a 1-by-1 screen returns `false`
and leaves the screen unchanged. -/
theorem drawSprite_out_of_bounds_witness :
    drawCell ⟨[0], [none], [none], 1, 1⟩ 3 5 0 .set 0
      = (false, ⟨[0], [none], [none], 1, 1⟩) :=
  drawSprite_out_of_bounds.1 ⟨[0], [none], [none], 1, 1⟩ 3 5 0 .set 0
    (Or.inl (by decide))

end Ti

namespace Ti

/-- Rust `copy_from_slice` into `buf[pos .. pos + bytes.len()]`, modelled
as elementwise `set`. -/
def writeSlice {α : Type} (buf : List α) (pos : Nat) (bytes : List α) : List α :=
  match bytes with
  | [] => buf
  | b :: rest => writeSlice (buf.set pos b) (pos + 1) rest

/-- `Screen::rasterize` from `screen.rs`: a buffer of
`cells.len() * BRAILLE_UTF8_BYTES + height` zero bytes is filled by
copying each cell's braille UTF-8 bytes to `i * 3 + y` and a newline byte
to `(y + 1) * (width * 3 + 1) - 1` per row. -/
def rasterize (s : Screen) : List Nat :=
  (List.range s.height).foldl
    (fun buf y =>
      ((List.range s.width).foldl
          (fun buf x =>
            writeSlice buf (indexOf x y s.width * 3 + y)
              (toBrailleUtf8 (s.cells.getD (indexOf x y s.width) 0)))
          buf).set ((y + 1) * (s.width * 3 + 1) - 1) 10)
    (List.replicate (s.cells.length * BRAILLE_UTF8_BYTES + s.height) 0)

/-- The rasterized output as the spec describes it (the comparison
definition for the refinement): one row per screen row, each row the
concatenation of its cells' 3-byte braille UTF-8 sequences in row-major
order, terminated by the newline byte `0x0A`. -/
def rasterizeRows (cells : List Nat) (w h : Nat) : List Nat :=
  ((List.range h).map
    (fun y =>
      ((List.range w).map (fun x => toBrailleUtf8 (cells.getD (indexOf x y w) 0))).flatten
        ++ [10])).flatten

theorem writeSlice_append {α : Type} (a : List α) : ∀ (b buf : List α) (pos : Nat),
    writeSlice buf pos (a ++ b) = writeSlice (writeSlice buf pos a) (pos + a.length) b := by
  induction a with
  | nil => intro b buf pos; simp [writeSlice]
  | cons x a ih =>
    intro b buf pos
    rw [List.cons_append]
    show writeSlice (buf.set pos x) (pos + 1) (a ++ b)
      = writeSlice (writeSlice (buf.set pos x) (pos + 1) a) (pos + (x :: a).length) b
    rw [ih]
    have h : pos + 1 + a.length = pos + (x :: a).length := by simp; omega
    rw [h]

theorem flatten_map_length {α β : Type} (f : α → List β) (k : Nat)
    (hf : ∀ x, (f x).length = k) : ∀ (l : List α), ((l.map f).flatten).length = k * l.length := by
  intro l
  induction l with
  | nil => simp
  | cons x l ih =>
    simp only [List.map_cons, List.flatten_cons, List.length_append, List.length_cons, ih, hf]
    rw [Nat.mul_succ]
    omega

theorem foldl_writeSlice {α : Type} (f : Nat → List α) (k : Nat)
    (hf : ∀ x, (f x).length = k) (start : Nat) :
    ∀ (n : Nat) (buf : List α),
      (List.range n).foldl (fun b x => writeSlice b (start + k * x) (f x)) buf
        = writeSlice buf start ((List.range n).map f).flatten := by
  intro n
  induction n with
  | zero => intro buf; rfl
  | succ n ih =>
    intro buf
    rw [List.range_succ, List.foldl_append, List.map_append, List.flatten_append, ih]
    simp only [List.foldl_cons, List.foldl_nil, List.map_cons, List.map_nil, List.flatten_cons,
      List.flatten_nil, List.append_nil]
    rw [writeSlice_append]
    rw [flatten_map_length f k hf, List.length_range]

theorem writeSlice_fill {α : Type} : ∀ (bytes pre buf : List α), buf.length = bytes.length →
    writeSlice (pre ++ buf) pre.length bytes = pre ++ bytes := by
  intro bytes
  induction bytes with
  | nil =>
    intro pre buf h
    rw [List.length_eq_zero.mp h]
    rfl
  | cons c rest ih =>
    intro pre buf h
    cases buf with
    | nil => simp at h
    | cons b buf' =>
      simp only [writeSlice]
      rw [List.set_append_right _ _ (Nat.le_refl _), Nat.sub_self]
      have hsplit : pre ++ List.set (b :: buf') 0 c = (pre ++ [c]) ++ buf' := by simp
      rw [hsplit]
      have hlen : pre.length + 1 = (pre ++ [c]).length := by simp
      rw [hlen, ih (pre ++ [c]) buf' (by simpa using h)]
      simp

end Ti

namespace Ti

theorem toBrailleUtf8_length (b : Nat) : (toBrailleUtf8 b).length = 3 := rfl

theorem rasterize_row_step (cells : List Nat) (w : Nat) (y : Nat) (buf : List Nat) :
    ((List.range w).foldl
        (fun buf x =>
          writeSlice buf (indexOf x y w * 3 + y)
            (toBrailleUtf8 (cells.getD (indexOf x y w) 0)))
        buf).set ((y + 1) * (w * 3 + 1) - 1) 10
      = writeSlice buf (0 + (w * 3 + 1) * y)
          (((List.range w).map (fun x => toBrailleUtf8 (cells.getD (indexOf x y w) 0))).flatten
            ++ [10]) := by
  have hinner :
      (fun (b : List Nat) (x : Nat) =>
          writeSlice b (indexOf x y w * 3 + y) (toBrailleUtf8 (cells.getD (indexOf x y w) 0)))
        = fun b x =>
            writeSlice b (y * (w * 3 + 1) + 3 * x) (toBrailleUtf8 (cells.getD (indexOf x y w) 0)) := by
    funext b x
    have hpos : indexOf x y w * 3 + y = y * (w * 3 + 1) + 3 * x := by
      unfold indexOf; ring
    rw [hpos]
  rw [hinner]
  rw [foldl_writeSlice (fun x => toBrailleUtf8 (cells.getD (indexOf x y w) 0)) 3
    (fun x => toBrailleUtf8_length _) (y * (w * 3 + 1)) w buf]
  rw [writeSlice_append]
  rw [flatten_map_length _ 3 (fun x => toBrailleUtf8_length _) (List.range w), List.length_range]
  have hpos2 : (y + 1) * (w * 3 + 1) - 1 = y * (w * 3 + 1) + 3 * w := by
    rw [Nat.succ_mul]
    omega
  have hpos3 : 0 + (w * 3 + 1) * y = y * (w * 3 + 1) := by ring
  rw [hpos2, hpos3]
  rfl

/-- C10: `Screen::rasterize` produces exactly `height` rows, each the
left-to-right concatenation of the row's cells' 3-byte braille UTF-8
sequences followed by a single newline byte `0x0A` (`rasterizeRows`);
the output length is `height * (width * 3 + 1)` bytes; every cell
contributes exactly 3 UTF-8 bytes decoding to a codepoint in
`U+2800..U+28FF`; and the output depends only on the `cells` array,
ignoring deltas and colors. -/
theorem rasterize_layout (s : Screen) (hlen : s.cells.length = s.width * s.height) :
    rasterize s = rasterizeRows s.cells s.width s.height
      ∧ (rasterize s).length = s.height * (s.width * 3 + 1)
      ∧ (∀ b < 256,
          (toBrailleUtf8 b).length = 3
            ∧ BRAILLE_BASE_CODEPOINT ≤ toBrailleChar b
            ∧ toBrailleChar b < BRAILLE_BASE_CODEPOINT + 256
            ∧ decodeUtf8Three (toBrailleUtf8 b) = some (toBrailleChar b))
      ∧ (∀ (s' : Screen), s'.cells = s.cells → s'.width = s.width → s'.height = s.height →
          rasterize s' = rasterize s) := by
  have hrowlen : ∀ y : Nat,
      ((((List.range s.width).map
          (fun x => toBrailleUtf8 (s.cells.getD (indexOf x y s.width) 0))).flatten
        ++ [10]) : List Nat).length = s.width * 3 + 1 := by
    intro y
    rw [List.length_append,
      flatten_map_length _ 3 (fun x => toBrailleUtf8_length _) (List.range s.width),
      List.length_range]
    simp [Nat.mul_comm]
  have hmain : rasterize s = rasterizeRows s.cells s.width s.height := by
    unfold rasterize rasterizeRows
    have hbody :
        (fun (buf : List Nat) (y : Nat) =>
            ((List.range s.width).foldl
                (fun buf x =>
                  writeSlice buf (indexOf x y s.width * 3 + y)
                    (toBrailleUtf8 (s.cells.getD (indexOf x y s.width) 0)))
                buf).set ((y + 1) * (s.width * 3 + 1) - 1) 10)
          = fun buf y =>
              writeSlice buf (0 + (s.width * 3 + 1) * y)
                (((List.range s.width).map
                    (fun x => toBrailleUtf8 (s.cells.getD (indexOf x y s.width) 0))).flatten
                  ++ [10]) := by
      funext buf y
      exact rasterize_row_step s.cells s.width y buf
    rw [hbody]
    rw [foldl_writeSlice _ (s.width * 3 + 1) hrowlen 0 s.height]
    have hbuf0 :
        (List.replicate (s.cells.length * BRAILLE_UTF8_BYTES + s.height) (0 : Nat)).length
          = (((List.range s.height).map
              (fun y =>
                ((List.range s.width).map
                    (fun x => toBrailleUtf8 (s.cells.getD (indexOf x y s.width) 0))).flatten
                  ++ [10])).flatten).length := by
      rw [List.length_replicate,
        flatten_map_length _ (s.width * 3 + 1) hrowlen (List.range s.height),
        List.length_range, hlen]
      unfold BRAILLE_UTF8_BYTES
      ring
    have := writeSlice_fill
      (((List.range s.height).map
          (fun y =>
            ((List.range s.width).map
                (fun x => toBrailleUtf8 (s.cells.getD (indexOf x y s.width) 0))).flatten
              ++ [10])).flatten)
      []
      (List.replicate (s.cells.length * BRAILLE_UTF8_BYTES + s.height) (0 : Nat))
      (by rw [hbuf0])
    simpa using this
  refine ⟨hmain, ?_, by decide!, ?_⟩
  · rw [hmain]
    unfold rasterizeRows
    rw [flatten_map_length _ (s.width * 3 + 1) hrowlen (List.range s.height),
      List.length_range, Nat.mul_comm]
  · intro s' h1 h2 h3
    unfold rasterize
    rw [h1, h2, h3]

/-- Witness for C10 on a 2-by-1 screen with cells 1 and 2. -/
theorem rasterize_layout_witness :
    rasterize ⟨[1, 2], [none, none], [none, none], 2, 1⟩
        = rasterizeRows (Screen.mk [1, 2] [none, none] [none, none] 2 1).cells
            (Screen.mk [1, 2] [none, none] [none, none] 2 1).width
            (Screen.mk [1, 2] [none, none] [none, none] 2 1).height
      ∧ (rasterize ⟨[1, 2], [none, none], [none, none], 2, 1⟩).length
          = (Screen.mk [1, 2] [none, none] [none, none] 2 1).height
            * ((Screen.mk [1, 2] [none, none] [none, none] 2 1).width * 3 + 1) :=
  ⟨(rasterize_layout ⟨[1, 2], [none, none], [none, none], 2, 1⟩ (by decide)).1,
   (rasterize_layout ⟨[1, 2], [none, none], [none, none], 2, 1⟩ (by decide)).2.1⟩

end Ti

namespace Ti

/-- The row-major iteration order of the `Sprite::new` loops: all `(x, y)`
with `x < w`, `y < h`, rows outer. -/
def srcPairs (w h : Nat) : List (Nat × Nat) :=
  (List.range h).flatMap (fun y => (List.range w).map (fun x => (x, y)))

theorem mem_srcPairs (w h : Nat) (p : Nat × Nat) :
    p ∈ srcPairs w h ↔ p.1 < w ∧ p.2 < h := by
  unfold srcPairs
  simp only [List.mem_flatMap, List.mem_map, List.mem_range]
  constructor
  · rintro ⟨y, hy, x, hx, rfl⟩
    exact ⟨hx, hy⟩
  · rintro ⟨h1, h2⟩
    exact ⟨p.2, h2, p.1, h1, rfl⟩

theorem foldl_flatMap {α β γ : Type} (g : α → List β) (f : γ → β → γ) :
    ∀ (l : List α) (init : γ),
      (l.flatMap g).foldl f init = l.foldl (fun acc a => (g a).foldl f acc) init := by
  intro l
  induction l with
  | nil => intro init; rfl
  | cons a l ih =>
    intro init
    simp only [List.flatMap_cons, List.foldl_append, List.foldl_cons, ih]

/-- `spriteNewGrid` as a single fold over the row-major source pairs. -/
theorem spriteNewGrid_eq_flat (data : List ColoredCell) (w h dx dy : Nat) :
    spriteNewGrid data w h dx dy
      = (srcPairs w h).foldl
          (fun buf p =>
            spriteNewStep data w ((if dx ≠ 0 then 1 else 0) + w) dx dy buf p.1 p.2)
          (List.replicate
            (cellLength ((if dx ≠ 0 then 1 else 0) + w) ((if dy ≠ 0 then 1 else 0) + h))
            ⟨0, none⟩) := by
  unfold spriteNewGrid srcPairs
  rw [foldl_flatMap]
  simp only [List.foldl_map]

/-- OR-fold of a contribution function over a list. -/
def orFold {α : Type} (f : α → Nat) : List α → Nat
  | [] => 0
  | p :: L => f p ||| orFold f L

theorem or_left_comm' (a b c : Nat) : a ||| (b ||| c) = b ||| (a ||| c) := by
  rw [← Nat.or_assoc, Nat.or_comm a b, Nat.or_assoc]

theorem or_or_or (a b c d : Nat) : (a ||| b) ||| (c ||| d) = (a ||| c) ||| (b ||| d) := by
  rw [Nat.or_assoc a b, or_left_comm' b c d, ← Nat.or_assoc a c]

theorem orFold_or {α : Type} (f g : α → Nat) :
    ∀ (L : List α), orFold (fun p => f p ||| g p) L = orFold f L ||| orFold g L := by
  intro L
  induction L with
  | nil => simp [orFold]
  | cons q L ih =>
    simp only [orFold, ih]
    exact or_or_or (f q) (g q) (orFold f L) (orFold g L)

theorem orFold_zero {α : Type} (f : α → Nat) :
    ∀ (L : List α), (∀ p ∈ L, f p = 0) → orFold f L = 0 := by
  intro L
  induction L with
  | nil => intro _; rfl
  | cons q L ih =>
    intro h
    simp only [orFold, h q (List.mem_cons_self q L),
      ih (fun p hp => h p (List.mem_cons_of_mem q hp)), Nat.or_zero]

theorem orFold_single {α : Type} [DecidableEq α] (f : α → Nat) (p0 : α) (v : Nat) :
    ∀ (L : List α), (∀ p ∈ L, f p = if p = p0 then v else 0) →
      orFold f L = if p0 ∈ L then v else 0 := by
  intro L
  induction L with
  | nil => intro _; simp [orFold]
  | cons q L ih =>
    intro h
    have hq := h q (List.mem_cons_self q L)
    have ihL := ih (fun p hp => h p (List.mem_cons_of_mem q hp))
    simp only [orFold, hq, ihL]
    by_cases hqp : q = p0
    · subst hqp
      by_cases hm : q ∈ L <;> simp [hm, Nat.or_self, Nat.or_zero]
    · have hne : ¬p0 = q := fun h' => hqp h'.symm
      rw [if_neg hqp]
      by_cases hm : p0 ∈ L <;> simp [hm, hne, List.mem_cons]

/-- The contribution of source pair `p` to grid index `j`, for one of the
four output slots `(cx, cy)`. -/
def slotContrib (data : List ColoredCell) (w W dx dy j cx cy : Nat) (p : Nat × Nat) : Nat :=
  if indexOf (p.1 + cx) (p.2 + cy) W = j
  then (withOffset ((data.getD (indexOf p.1 p.2 w) ⟨0, none⟩).cell) dx dy).cellAt cx cy
  else 0

/-- The total contribution of source pair `p` to grid index `j`. -/
def cellContrib (data : List ColoredCell) (w W dx dy j : Nat) (p : Nat × Nat) : Nat :=
  slotContrib data w W dx dy j 0 0 p ||| slotContrib data w W dx dy j 1 0 p
    ||| slotContrib data w W dx dy j 0 1 p ||| slotContrib data w W dx dy j 1 1 p

theorem mergeAt_length (buf : List ColoredCell) (i cell : Nat) (color : Option Nat) :
    (mergeAt buf i cell color).length = buf.length := by
  simp [mergeAt]

theorem mergeAt_cell (buf : List ColoredCell) (i cell : Nat) (color : Option Nat)
    (j : Nat) (hj : j < buf.length) :
    ((mergeAt buf i cell color).getD j ⟨0, none⟩).cell
      = (buf.getD j ⟨0, none⟩).cell ||| (if i = j then cell else 0) := by
  unfold mergeAt mergeCell
  by_cases h : i = j
  · subst h
    rw [getD_set_self _ _ _ _ hj]
    simp
  · rw [getD_set_ne _ _ _ _ _ h]
    simp [h]

theorem spriteNewStep_length (data : List ColoredCell) (w W dx dy : Nat)
    (buf : List ColoredCell) (x y : Nat) :
    (spriteNewStep data w W dx dy buf x y).length = buf.length := by
  rcases hoc : withOffset ((data.getD (indexOf x y w) ⟨0, none⟩).cell) dx dy with
    c | ⟨l, r⟩ | ⟨u, d⟩ | ⟨ul, ur, dl, dr⟩ <;>
    simp only [spriteNewStep] <;>
    rw [hoc] <;>
    simp [mergeAt_length]

theorem spriteNewStep_cell (data : List ColoredCell) (w W dx dy : Nat)
    (buf : List ColoredCell) (x y j : Nat) (hj : j < buf.length) :
    ((spriteNewStep data w W dx dy buf x y).getD j ⟨0, none⟩).cell
      = (buf.getD j ⟨0, none⟩).cell ||| cellContrib data w W dx dy j (x, y) := by
  rcases hoc : withOffset ((data.getD (indexOf x y w) ⟨0, none⟩).cell) dx dy with
    c | ⟨l, r⟩ | ⟨u, d⟩ | ⟨ul, ur, dl, dr⟩ <;>
    simp only [spriteNewStep, cellContrib, slotContrib] <;>
    rw [hoc] <;>
    simp only [OffsetCell.cellAt]
  · rw [mergeAt_cell _ _ _ _ _ hj]
    simp [Nat.or_assoc]
  · rw [mergeAt_cell _ _ _ _ _ (by rw [mergeAt_length]; exact hj),
      mergeAt_cell _ _ _ _ _ hj]
    simp [Nat.or_assoc]
  · rw [mergeAt_cell _ _ _ _ _ (by rw [mergeAt_length]; exact hj),
      mergeAt_cell _ _ _ _ _ hj]
    simp [Nat.or_assoc]
  · rw [mergeAt_cell _ _ _ _ _
        (by rw [mergeAt_length, mergeAt_length, mergeAt_length]; exact hj),
      mergeAt_cell _ _ _ _ _ (by rw [mergeAt_length, mergeAt_length]; exact hj),
      mergeAt_cell _ _ _ _ _ (by rw [mergeAt_length]; exact hj),
      mergeAt_cell _ _ _ _ _ hj]
    simp [Nat.or_assoc]

theorem foldl_spriteNewStep_cell (data : List ColoredCell) (w W dx dy : Nat) :
    ∀ (L : List (Nat × Nat)) (buf : List ColoredCell) (j : Nat), j < buf.length →
      (((L.foldl (fun b p => spriteNewStep data w W dx dy b p.1 p.2) buf).getD j
          ⟨0, none⟩)).cell
        = (buf.getD j ⟨0, none⟩).cell ||| orFold (cellContrib data w W dx dy j) L := by
  intro L
  induction L with
  | nil => intro buf j hj; simp [orFold]
  | cons p L ih =>
    intro buf j hj
    simp only [List.foldl_cons]
    rw [ih _ j (by rw [spriteNewStep_length]; exact hj)]
    rw [spriteNewStep_cell data w W dx dy buf p.1 p.2 j hj]
    simp only [orFold, Nat.or_assoc]

end Ti

namespace Ti

theorem indexOf_inj (x y X Y W : Nat) (hx : x < W) (hX : X < W)
    (h : indexOf x y W = indexOf X Y W) : x = X ∧ y = Y := by
  unfold indexOf at h
  have hW : 0 < W := Nat.lt_of_le_of_lt (Nat.zero_le x) hx
  have h1 : (y * W + x) % W = x := by
    rw [Nat.add_comm, Nat.add_mul_mod_self_right, Nat.mod_eq_of_lt hx]
  have h2 : (Y * W + X) % W = X := by
    rw [Nat.add_comm, Nat.add_mul_mod_self_right, Nat.mod_eq_of_lt hX]
  have h3 : (y * W + x) / W = y := by
    rw [Nat.add_comm, Nat.add_mul_div_right _ _ hW, Nat.div_eq_of_lt hx, Nat.zero_add]
  have h4 : (Y * W + X) / W = Y := by
    rw [Nat.add_comm, Nat.add_mul_div_right _ _ hW, Nat.div_eq_of_lt hX, Nat.zero_add]
  constructor
  · have hm := congrArg (fun t => t % W) h
    simp only at hm
    rw [h1, h2] at hm
    exact hm
  · have hd := congrArg (fun t => t / W) h
    simp only at hd
    rw [h3, h4] at hd
    exact hd

theorem cellAt_ur_of_dx0 (s dy : Nat) : (withOffset s 0 dy).cellAt 1 0 = 0 := by
  have h4 : dy % 4 = 0 ∨ dy % 4 = 1 ∨ dy % 4 = 2 ∨ dy % 4 = 3 := by omega
  rcases h4 with h4 | h4 | h4 | h4 <;>
    simp [withOffset, PIXEL_WIDTH, PIXEL_HEIGHT, h4, OffsetCell.cellAt]

theorem cellAt_dr_of_dx0 (s dy : Nat) : (withOffset s 0 dy).cellAt 1 1 = 0 := by
  have h4 : dy % 4 = 0 ∨ dy % 4 = 1 ∨ dy % 4 = 2 ∨ dy % 4 = 3 := by omega
  rcases h4 with h4 | h4 | h4 | h4 <;>
    simp [withOffset, PIXEL_WIDTH, PIXEL_HEIGHT, h4, OffsetCell.cellAt]

theorem cellAt_dl_of_dy0 (s dx : Nat) : (withOffset s dx 0).cellAt 0 1 = 0 := by
  have h2 : dx % 2 = 0 ∨ dx % 2 = 1 := by omega
  rcases h2 with h2 | h2 <;>
    simp [withOffset, PIXEL_WIDTH, PIXEL_HEIGHT, h2, OffsetCell.cellAt]

theorem cellAt_dr_of_dy0 (s dx : Nat) : (withOffset s dx 0).cellAt 1 1 = 0 := by
  have h2 : dx % 2 = 0 ∨ dx % 2 = 1 := by omega
  rcases h2 with h2 | h2 <;>
    simp [withOffset, PIXEL_WIDTH, PIXEL_HEIGHT, h2, OffsetCell.cellAt]

theorem orFold_slot00 (data : List ColoredCell) (w h dx dy X Y W : Nat)
    (hWdef : W = (if dx ≠ 0 then 1 else 0) + w) (hX : X < W) :
    orFold (slotContrib data w W dx dy (indexOf X Y W) 0 0) (srcPairs w h)
      = if X < w ∧ Y < h
        then (withOffset ((data.getD (indexOf X Y w) ⟨0, none⟩).cell) dx dy).cellAt 0 0
        else 0 := by
  rw [orFold_single (slotContrib data w W dx dy (indexOf X Y W) 0 0) (X, Y)
      ((withOffset ((data.getD (indexOf X Y w) ⟨0, none⟩).cell) dx dy).cellAt 0 0)
      (srcPairs w h) ?_]
  · by_cases hm : X < w ∧ Y < h
    · rw [if_pos ((mem_srcPairs w h (X, Y)).mpr (by simpa using hm)), if_pos hm]
    · rw [if_neg (fun hmem => hm (by simpa using (mem_srcPairs w h (X, Y)).mp hmem)),
        if_neg hm]
  · rintro ⟨px, py⟩ hp
    obtain ⟨hpw, hph⟩ := (mem_srcPairs w h (px, py)).mp hp
    unfold slotContrib
    simp only [Nat.add_zero]
    by_cases hc : indexOf px py W = indexOf X Y W
    · obtain ⟨rfl, rfl⟩ := indexOf_inj px py X Y W (by omega) hX hc
      rw [if_pos hc, if_pos rfl]
    · rw [if_neg hc, if_neg (fun he => hc (by rw [(Prod.mk.injEq _ _ _ _).mp he |>.1,
        (Prod.mk.injEq _ _ _ _).mp he |>.2]))]

theorem orFold_slot10 (data : List ColoredCell) (w h dx dy X Y W : Nat)
    (hWdef : W = (if dx ≠ 0 then 1 else 0) + w) (hX : X < W) :
    orFold (slotContrib data w W dx dy (indexOf X Y W) 1 0) (srcPairs w h)
      = if 1 ≤ X ∧ X - 1 < w ∧ Y < h
        then (withOffset ((data.getD (indexOf (X - 1) Y w) ⟨0, none⟩).cell) dx dy).cellAt 1 0
        else 0 := by
  by_cases hdx : dx = 0
  · subst hdx
    rw [orFold_zero, if_congr Iff.rfl (cellAt_ur_of_dx0 _ dy) rfl, ite_self]
    rintro ⟨px, py⟩ hp
    unfold slotContrib
    rw [cellAt_ur_of_dx0, ite_self]
  · have hW : W = 1 + w := by rw [hWdef, if_pos hdx]
    by_cases hX1 : 1 ≤ X
    · rw [orFold_single (slotContrib data w W dx dy (indexOf X Y W) 1 0) (X - 1, Y)
          ((withOffset ((data.getD (indexOf (X - 1) Y w) ⟨0, none⟩).cell) dx dy).cellAt 1 0)
          (srcPairs w h) ?_]
      · by_cases hm : X - 1 < w ∧ Y < h
        · rw [if_pos ((mem_srcPairs w h (X - 1, Y)).mpr (by simpa using hm)),
            if_pos ⟨hX1, hm.1, hm.2⟩]
        · rw [if_neg (fun hmem => hm (by simpa using (mem_srcPairs w h (X - 1, Y)).mp hmem)),
            if_neg (fun hg => hm ⟨hg.2.1, hg.2.2⟩)]
      · rintro ⟨px, py⟩ hp
        obtain ⟨hpw, hph⟩ := (mem_srcPairs w h (px, py)).mp hp
        unfold slotContrib
        simp only [Nat.add_zero]
        by_cases hc : indexOf (px + 1) py W = indexOf X Y W
        · obtain ⟨he1, he2⟩ := indexOf_inj (px + 1) py X Y W (by omega) hX hc
          have hpx : px = X - 1 := by omega
          rw [if_pos hc, if_pos (by rw [hpx, he2]), hpx, he2]
        · rw [if_neg hc, if_neg ?_]
          intro he
          obtain ⟨he1, he2⟩ := (Prod.mk.injEq _ _ _ _).mp he
          apply hc
          rw [he1, he2]
          unfold indexOf
          omega
    · rw [orFold_zero, if_neg (by omega)]
      rintro ⟨px, py⟩ hp
      obtain ⟨hpw, hph⟩ := (mem_srcPairs w h (px, py)).mp hp
      unfold slotContrib
      simp only [Nat.add_zero]
      rw [if_neg ?_]
      intro hc
      obtain ⟨he1, he2⟩ := indexOf_inj (px + 1) py X Y W (by omega) hX hc
      omega

end Ti

namespace Ti

theorem orFold_slot01 (data : List ColoredCell) (w h dx dy X Y W : Nat)
    (hWdef : W = (if dx ≠ 0 then 1 else 0) + w) (hX : X < W) :
    orFold (slotContrib data w W dx dy (indexOf X Y W) 0 1) (srcPairs w h)
      = if X < w ∧ 1 ≤ Y ∧ Y - 1 < h
        then (withOffset ((data.getD (indexOf X (Y - 1) w) ⟨0, none⟩).cell) dx dy).cellAt 0 1
        else 0 := by
  by_cases hdy : dy = 0
  · subst hdy
    rw [orFold_zero, if_congr Iff.rfl (cellAt_dl_of_dy0 _ dx) rfl, ite_self]
    rintro ⟨px, py⟩ hp
    unfold slotContrib
    simp only [Nat.add_zero]
    rw [cellAt_dl_of_dy0, ite_self]
  · by_cases hY1 : 1 ≤ Y
    · rw [orFold_single (slotContrib data w W dx dy (indexOf X Y W) 0 1) (X, Y - 1)
          ((withOffset ((data.getD (indexOf X (Y - 1) w) ⟨0, none⟩).cell) dx dy).cellAt 0 1)
          (srcPairs w h) ?_]
      · by_cases hm : X < w ∧ Y - 1 < h
        · rw [if_pos ((mem_srcPairs w h (X, Y - 1)).mpr (by simpa using hm)),
            if_pos ⟨hm.1, hY1, hm.2⟩]
        · rw [if_neg (fun hmem => hm (by simpa using (mem_srcPairs w h (X, Y - 1)).mp hmem)),
            if_neg (fun hg => hm ⟨hg.1, hg.2.2⟩)]
      · rintro ⟨px, py⟩ hp
        obtain ⟨hpw, hph⟩ := (mem_srcPairs w h (px, py)).mp hp
        unfold slotContrib
        simp only [Nat.add_zero]
        by_cases hc : indexOf px (py + 1) W = indexOf X Y W
        · obtain ⟨he1, he2⟩ := indexOf_inj px (py + 1) X Y W
            (by rw [hWdef]; split <;> omega) hX hc
          have hpy : py = Y - 1 := by omega
          rw [if_pos hc, if_pos (by rw [he1, hpy]), he1, hpy]
        · rw [if_neg hc, if_neg ?_]
          intro he
          obtain ⟨he1, he2⟩ := (Prod.mk.injEq _ _ _ _).mp he
          apply hc
          rw [he1, he2, show Y - 1 + 1 = Y from by omega]
    · rw [orFold_zero, if_neg (by omega)]
      rintro ⟨px, py⟩ hp
      obtain ⟨hpw, hph⟩ := (mem_srcPairs w h (px, py)).mp hp
      unfold slotContrib
      simp only [Nat.add_zero]
      rw [if_neg ?_]
      intro hc
      obtain ⟨he1, he2⟩ := indexOf_inj px (py + 1) X Y W
        (by rw [hWdef]; split <;> omega) hX hc
      omega

theorem orFold_slot11 (data : List ColoredCell) (w h dx dy X Y W : Nat)
    (hWdef : W = (if dx ≠ 0 then 1 else 0) + w) (hX : X < W) :
    orFold (slotContrib data w W dx dy (indexOf X Y W) 1 1) (srcPairs w h)
      = if 1 ≤ X ∧ 1 ≤ Y ∧ X - 1 < w ∧ Y - 1 < h
        then (withOffset ((data.getD (indexOf (X - 1) (Y - 1) w) ⟨0, none⟩).cell) dx dy).cellAt 1 1
        else 0 := by
  by_cases hdx : dx = 0
  · subst hdx
    rw [orFold_zero, if_congr Iff.rfl (cellAt_dr_of_dx0 _ dy) rfl, ite_self]
    rintro ⟨px, py⟩ hp
    unfold slotContrib
    simp only [Nat.add_zero]
    rw [cellAt_dr_of_dx0, ite_self]
  · by_cases hdy : dy = 0
    · subst hdy
      rw [orFold_zero, if_congr Iff.rfl (cellAt_dr_of_dy0 _ dx) rfl, ite_self]
      rintro ⟨px, py⟩ hp
      unfold slotContrib
      simp only [Nat.add_zero]
      rw [cellAt_dr_of_dy0, ite_self]
    · have hW : W = 1 + w := by rw [hWdef, if_pos hdx]
      by_cases hX1 : 1 ≤ X
      · by_cases hY1 : 1 ≤ Y
        · rw [orFold_single (slotContrib data w W dx dy (indexOf X Y W) 1 1) (X - 1, Y - 1)
              ((withOffset ((data.getD (indexOf (X - 1) (Y - 1) w) ⟨0, none⟩).cell)
                dx dy).cellAt 1 1)
              (srcPairs w h) ?_]
          · by_cases hm : X - 1 < w ∧ Y - 1 < h
            · rw [if_pos ((mem_srcPairs w h (X - 1, Y - 1)).mpr (by simpa using hm)),
                if_pos ⟨hX1, hY1, hm.1, hm.2⟩]
            · rw [if_neg
                  (fun hmem => hm (by simpa using (mem_srcPairs w h (X - 1, Y - 1)).mp hmem)),
                if_neg (fun hg => hm ⟨hg.2.2.1, hg.2.2.2⟩)]
          · rintro ⟨px, py⟩ hp
            obtain ⟨hpw, hph⟩ := (mem_srcPairs w h (px, py)).mp hp
            unfold slotContrib
            simp only [Nat.add_zero]
            by_cases hc : indexOf (px + 1) (py + 1) W = indexOf X Y W
            · obtain ⟨he1, he2⟩ := indexOf_inj (px + 1) (py + 1) X Y W (by omega) hX hc
              have hpx : px = X - 1 := by omega
              have hpy : py = Y - 1 := by omega
              rw [if_pos hc, if_pos (by rw [hpx, hpy]), hpx, hpy]
            · rw [if_neg hc, if_neg ?_]
              intro he
              obtain ⟨he1, he2⟩ := (Prod.mk.injEq _ _ _ _).mp he
              apply hc
              rw [he1, he2, show X - 1 + 1 = X from by omega, show Y - 1 + 1 = Y from by omega]
        · rw [orFold_zero, if_neg (by omega)]
          rintro ⟨px, py⟩ hp
          obtain ⟨hpw, hph⟩ := (mem_srcPairs w h (px, py)).mp hp
          unfold slotContrib
          simp only [Nat.add_zero]
          rw [if_neg ?_]
          intro hc
          obtain ⟨he1, he2⟩ := indexOf_inj (px + 1) (py + 1) X Y W (by omega) hX hc
          omega
      · rw [orFold_zero, if_neg (by omega)]
        rintro ⟨px, py⟩ hp
        obtain ⟨hpw, hph⟩ := (mem_srcPairs w h (px, py)).mp hp
        unfold slotContrib
        simp only [Nat.add_zero]
        rw [if_neg ?_]
        intro hc
        obtain ⟨he1, he2⟩ := indexOf_inj (px + 1) (py + 1) X Y W (by omega) hX hc
        omega

end Ti

namespace Ti

/-- Closed form of one offset grid of `Sprite::new`: the cell stored at
row-major position `(X, Y)` (indexed by the offset grid's own width) is
the OR of the offset-split parts landing there: the `ul` part of source
`(X, Y)`, the `ur` part of source `(X-1, Y)`, the `dl` part of source
`(X, Y-1)` and the `dr` part of source `(X-1, Y-1)`, each present exactly
when that source exists in the base grid. -/
theorem spriteNewGrid_closed_form (data : List ColoredCell) (w h dx dy X Y : Nat)
    (hX : X < (if dx ≠ 0 then 1 else 0) + w) (hY : Y < (if dy ≠ 0 then 1 else 0) + h) :
    ((spriteNewGrid data w h dx dy).getD
        (indexOf X Y ((if dx ≠ 0 then 1 else 0) + w)) ⟨0, none⟩).cell
      = (if X < w ∧ Y < h
          then (withOffset ((data.getD (indexOf X Y w) ⟨0, none⟩).cell) dx dy).cellAt 0 0
          else 0)
        ||| (if 1 ≤ X ∧ X - 1 < w ∧ Y < h
            then (withOffset ((data.getD (indexOf (X - 1) Y w) ⟨0, none⟩).cell) dx dy).cellAt 1 0
            else 0)
        ||| (if X < w ∧ 1 ≤ Y ∧ Y - 1 < h
            then (withOffset ((data.getD (indexOf X (Y - 1) w) ⟨0, none⟩).cell) dx dy).cellAt 0 1
            else 0)
        ||| (if 1 ≤ X ∧ 1 ≤ Y ∧ X - 1 < w ∧ Y - 1 < h
            then (withOffset ((data.getD (indexOf (X - 1) (Y - 1) w) ⟨0, none⟩).cell)
                dx dy).cellAt 1 1
            else 0) := by
  rw [spriteNewGrid_eq_flat]
  rw [foldl_spriteNewStep_cell data w ((if dx ≠ 0 then 1 else 0) + w) dx dy (srcPairs w h) _
      (indexOf X Y ((if dx ≠ 0 then 1 else 0) + w))
      (by
        rw [List.length_replicate]
        unfold cellLength
        exact indexOf_lt _ hX hY)]
  have hinit :
      ((List.replicate
          (cellLength ((if dx ≠ 0 then 1 else 0) + w) ((if dy ≠ 0 then 1 else 0) + h))
          (⟨0, none⟩ : ColoredCell)).getD
        (indexOf X Y ((if dx ≠ 0 then 1 else 0) + w)) ⟨0, none⟩).cell = 0 := by
    have hopt : ∀ (c : Prop) (_ : Decidable c),
        (if c then some (⟨0, none⟩ : ColoredCell) else none).getD ⟨0, none⟩ = ⟨0, none⟩ := by
      intro c hc
      split <;> rfl
    simp only [List.getD_eq_getElem?_getD, List.getElem?_replicate, hopt]
  rw [hinit, Nat.zero_or]
  have hcc :
      cellContrib data w ((if dx ≠ 0 then 1 else 0) + w) dx dy
          (indexOf X Y ((if dx ≠ 0 then 1 else 0) + w))
        = fun p =>
            (slotContrib data w ((if dx ≠ 0 then 1 else 0) + w) dx dy
                (indexOf X Y ((if dx ≠ 0 then 1 else 0) + w)) 0 0 p
              ||| slotContrib data w ((if dx ≠ 0 then 1 else 0) + w) dx dy
                (indexOf X Y ((if dx ≠ 0 then 1 else 0) + w)) 1 0 p
              ||| slotContrib data w ((if dx ≠ 0 then 1 else 0) + w) dx dy
                (indexOf X Y ((if dx ≠ 0 then 1 else 0) + w)) 0 1 p)
              ||| slotContrib data w ((if dx ≠ 0 then 1 else 0) + w) dx dy
                (indexOf X Y ((if dx ≠ 0 then 1 else 0) + w)) 1 1 p := rfl
  rw [hcc, orFold_or, orFold_or, orFold_or]
  rw [orFold_slot00 data w h dx dy X Y _ rfl hX, orFold_slot10 data w h dx dy X Y _ rfl hX,
    orFold_slot01 data w h dx dy X Y _ rfl hX, orFold_slot11 data w h dx dy X Y _ rfl hX]

end Ti

namespace Ti

/-- Shifts the `ul` output cell's bits back by `(-dx, -dy)` into source
positions (masking to the region that the `ul` part of the offset split
occupies). -/
def unshiftUL (dx dy t : Nat) : Nat :=
  if dx = 0 then t >>> (2 * dy) else ((t >>> (2 * dy)) &&& 170) >>> 1

/-- Shifts the `ur` output cell's bits back by `(-dx, -dy)` into source
positions. -/
def unshiftUR (dx dy t : Nat) : Nat :=
  if dx = 0 then 0 else ((t >>> (2 * dy)) &&& 85) <<< 1

/-- Shifts the `dl` output cell's bits back by `(-dx, -dy)` into source
positions. -/
def unshiftDL (dx dy t : Nat) : Nat :=
  if dy = 0 then 0
  else if dx = 0 then (t <<< (2 * (4 - dy))) &&& 255
  else (((t <<< (2 * (4 - dy))) &&& 255) &&& 170) >>> 1

/-- Shifts the `dr` output cell's bits back by `(-dx, -dy)` into source
positions. -/
def unshiftDR (dx dy t : Nat) : Nat :=
  if dx = 0 ∨ dy = 0 then 0 else (((t <<< (2 * (4 - dy))) &&& 255) &&& 85) <<< 1

theorem unshift_parts_check : ∀ s < 256, ∀ o < 8,
    ((unshiftUL (o % 2) (o / 2) ((withOffset s (o % 2) (o / 2)).cellAt 0 0)
          ||| unshiftUR (o % 2) (o / 2) ((withOffset s (o % 2) (o / 2)).cellAt 1 0)
          ||| unshiftDL (o % 2) (o / 2) ((withOffset s (o % 2) (o / 2)).cellAt 0 1)
          ||| unshiftDR (o % 2) (o / 2) ((withOffset s (o % 2) (o / 2)).cellAt 1 1)
        == s)
      && (unshiftUL (o % 2) (o / 2) ((withOffset s (o % 2) (o / 2)).cellAt 1 0) == 0)
      && (unshiftUL (o % 2) (o / 2) ((withOffset s (o % 2) (o / 2)).cellAt 0 1) == 0)
      && (unshiftUL (o % 2) (o / 2) ((withOffset s (o % 2) (o / 2)).cellAt 1 1) == 0)
      && (unshiftUR (o % 2) (o / 2) ((withOffset s (o % 2) (o / 2)).cellAt 0 0) == 0)
      && (unshiftUR (o % 2) (o / 2) ((withOffset s (o % 2) (o / 2)).cellAt 0 1) == 0)
      && (unshiftUR (o % 2) (o / 2) ((withOffset s (o % 2) (o / 2)).cellAt 1 1) == 0)
      && (unshiftDL (o % 2) (o / 2) ((withOffset s (o % 2) (o / 2)).cellAt 0 0) == 0)
      && (unshiftDL (o % 2) (o / 2) ((withOffset s (o % 2) (o / 2)).cellAt 1 0) == 0)
      && (unshiftDL (o % 2) (o / 2) ((withOffset s (o % 2) (o / 2)).cellAt 1 1) == 0)
      && (unshiftDR (o % 2) (o / 2) ((withOffset s (o % 2) (o / 2)).cellAt 0 0) == 0)
      && (unshiftDR (o % 2) (o / 2) ((withOffset s (o % 2) (o / 2)).cellAt 1 0) == 0)
      && (unshiftDR (o % 2) (o / 2) ((withOffset s (o % 2) (o / 2)).cellAt 0 1) == 0))
      = true := by
  decide!

theorem unshift_parts (s dx dy : Nat) (hs : s < 256) (hdx : dx < 2) (hdy : dy < 4) :
    (unshiftUL dx dy ((withOffset s dx dy).cellAt 0 0)
        ||| unshiftUR dx dy ((withOffset s dx dy).cellAt 1 0)
        ||| unshiftDL dx dy ((withOffset s dx dy).cellAt 0 1)
        ||| unshiftDR dx dy ((withOffset s dx dy).cellAt 1 1)
      = s)
    ∧ unshiftUL dx dy ((withOffset s dx dy).cellAt 1 0) = 0
    ∧ unshiftUL dx dy ((withOffset s dx dy).cellAt 0 1) = 0
    ∧ unshiftUL dx dy ((withOffset s dx dy).cellAt 1 1) = 0
    ∧ unshiftUR dx dy ((withOffset s dx dy).cellAt 0 0) = 0
    ∧ unshiftUR dx dy ((withOffset s dx dy).cellAt 0 1) = 0
    ∧ unshiftUR dx dy ((withOffset s dx dy).cellAt 1 1) = 0
    ∧ unshiftDL dx dy ((withOffset s dx dy).cellAt 0 0) = 0
    ∧ unshiftDL dx dy ((withOffset s dx dy).cellAt 1 0) = 0
    ∧ unshiftDL dx dy ((withOffset s dx dy).cellAt 1 1) = 0
    ∧ unshiftDR dx dy ((withOffset s dx dy).cellAt 0 0) = 0
    ∧ unshiftDR dx dy ((withOffset s dx dy).cellAt 1 0) = 0
    ∧ unshiftDR dx dy ((withOffset s dx dy).cellAt 0 1) = 0 := by
  have ho : 2 * dy + dx < 8 := by omega
  have h := unshift_parts_check s hs (2 * dy + dx) ho
  have h2 : (2 * dy + dx) % 2 = dx := by omega
  have h3 : (2 * dy + dx) / 2 = dy := by omega
  rw [h2, h3] at h
  simp only [Bool.and_eq_true, beq_iff_eq, decide_eq_true_eq] at h
  obtain ⟨⟨⟨⟨⟨⟨⟨⟨⟨⟨⟨⟨g1, z1⟩, z2⟩, z3⟩, z4⟩, z5⟩, z6⟩, z7⟩, z8⟩, z9⟩, z10⟩, z11⟩, z12⟩ := h
  exact ⟨g1, z1, z2, z3, z4, z5, z6, z7, z8, z9, z10, z11, z12⟩

theorem shiftRight_or_distrib (a b k : Nat) : (a ||| b) >>> k = (a >>> k) ||| (b >>> k) := by
  apply Nat.eq_of_testBit_eq
  intro i
  simp

theorem shiftLeft_or_distrib (a b k : Nat) : (a ||| b) <<< k = (a <<< k) ||| (b <<< k) := by
  apply Nat.eq_of_testBit_eq
  intro i
  simp [Bool.and_or_distrib_left]

theorem and_or_distrib_right' (a b m : Nat) : (a ||| b) &&& m = (a &&& m) ||| (b &&& m) := by
  apply Nat.eq_of_testBit_eq
  intro i
  simp [Bool.and_or_distrib_right]

theorem unshiftUL_or (dx dy a b : Nat) :
    unshiftUL dx dy (a ||| b) = unshiftUL dx dy a ||| unshiftUL dx dy b := by
  unfold unshiftUL
  split <;> simp [shiftRight_or_distrib, and_or_distrib_right']

theorem unshiftUR_or (dx dy a b : Nat) :
    unshiftUR dx dy (a ||| b) = unshiftUR dx dy a ||| unshiftUR dx dy b := by
  unfold unshiftUR
  split <;> simp [shiftRight_or_distrib, and_or_distrib_right', shiftLeft_or_distrib]

theorem unshiftDL_or (dx dy a b : Nat) :
    unshiftDL dx dy (a ||| b) = unshiftDL dx dy a ||| unshiftDL dx dy b := by
  unfold unshiftDL
  split
  · simp
  · split <;> simp [shiftLeft_or_distrib, and_or_distrib_right', shiftRight_or_distrib]

theorem unshiftDR_or (dx dy a b : Nat) :
    unshiftDR dx dy (a ||| b) = unshiftDR dx dy a ||| unshiftDR dx dy b := by
  unfold unshiftDR
  split <;> simp [shiftLeft_or_distrib, and_or_distrib_right']

theorem unshiftUL_zero (dx dy : Nat) : unshiftUL dx dy 0 = 0 := by
  unfold unshiftUL
  split <;> simp

theorem unshiftUR_zero (dx dy : Nat) : unshiftUR dx dy 0 = 0 := by
  unfold unshiftUR
  split <;> simp

theorem unshiftDL_zero (dx dy : Nat) : unshiftDL dx dy 0 = 0 := by
  unfold unshiftDL
  split
  · rfl
  · split <;> simp

theorem unshiftDR_zero (dx dy : Nat) : unshiftDR dx dy 0 = 0 := by
  unfold unshiftDR
  split <;> simp

theorem getD_cell_lt (data : List ColoredCell) (hbits : ∀ cc ∈ data, cc.cell < 256)
    (i : Nat) : (data.getD i ⟨0, none⟩).cell < 256 := by
  by_cases hi : i < data.length
  · have he : data.getD i ⟨0, none⟩ = data[i] := by
      simp [List.getD_eq_getElem?_getD, List.getElem?_eq_getElem hi]
    rw [he]
    exact hbits _ (List.getElem_mem hi)
  · have he : data.getD i ⟨0, none⟩ = ⟨0, none⟩ := by
      simp [List.getD_eq_getElem?_getD, List.getElem?_eq_none (Nat.le_of_not_lt hi)]
    rw [he]
    decide

end Ti

namespace Ti

/-- Shifting the four offset-grid cells surrounding source position
`(x, y)` back by `(-dx, -dy)` and OR-ing reproduces the source cell
exactly. -/
theorem spriteNewGrid_reconstruct (data : List ColoredCell) (w h dx dy x y : Nat)
    (hdx : dx < 2) (hdy : dy < 4) (hbits : ∀ cc ∈ data, cc.cell < 256)
    (hx : x < w) (hy : y < h) :
    unshiftUL dx dy ((spriteNewGrid data w h dx dy).getD
        (indexOf x y ((if dx ≠ 0 then 1 else 0) + w)) ⟨0, none⟩).cell
      ||| unshiftUR dx dy ((spriteNewGrid data w h dx dy).getD
          (indexOf (x + 1) y ((if dx ≠ 0 then 1 else 0) + w)) ⟨0, none⟩).cell
      ||| unshiftDL dx dy ((spriteNewGrid data w h dx dy).getD
          (indexOf x (y + 1) ((if dx ≠ 0 then 1 else 0) + w)) ⟨0, none⟩).cell
      ||| unshiftDR dx dy ((spriteNewGrid data w h dx dy).getD
          (indexOf (x + 1) (y + 1) ((if dx ≠ 0 then 1 else 0) + w)) ⟨0, none⟩).cell
      = (data.getD (indexOf x y w) ⟨0, none⟩).cell := by
  have hparts := fun (i : Nat) =>
    unshift_parts ((data.getD i ⟨0, none⟩).cell) dx dy (getD_cell_lt data hbits i) hdx hdy
  have hg := fun (i : Nat) => (hparts i).1
  have hzUL10 := fun (i : Nat) => (hparts i).2.1
  have hzUL01 := fun (i : Nat) => (hparts i).2.2.1
  have hzUL11 := fun (i : Nat) => (hparts i).2.2.2.1
  have hzUR00 := fun (i : Nat) => (hparts i).2.2.2.2.1
  have hzUR01 := fun (i : Nat) => (hparts i).2.2.2.2.2.1
  have hzUR11 := fun (i : Nat) => (hparts i).2.2.2.2.2.2.1
  have hzDL00 := fun (i : Nat) => (hparts i).2.2.2.2.2.2.2.1
  have hzDL10 := fun (i : Nat) => (hparts i).2.2.2.2.2.2.2.2.1
  have hzDL11 := fun (i : Nat) => (hparts i).2.2.2.2.2.2.2.2.2.1
  have hzDR00 := fun (i : Nat) => (hparts i).2.2.2.2.2.2.2.2.2.2.1
  have hzDR10 := fun (i : Nat) => (hparts i).2.2.2.2.2.2.2.2.2.2.2.1
  have hzDR01 := fun (i : Nat) => (hparts i).2.2.2.2.2.2.2.2.2.2.2.2
  have hXx : x < (if dx ≠ 0 then 1 else 0) + w := by split <;> omega
  have hYy : y < (if dy ≠ 0 then 1 else 0) + h := by split <;> omega
  rw [spriteNewGrid_closed_form data w h dx dy x y hXx hYy]
  rw [unshiftUL_or, unshiftUL_or, unshiftUL_or]
  simp only [apply_ite (unshiftUL dx dy), unshiftUL_zero, hzUL10, hzUL01, hzUL11, ite_self,
    Nat.or_zero, if_pos (And.intro hx hy)]
  have hdx01 : dx = 0 ∨ dx = 1 := by omega
  have hdy0 : dy = 0 ∨ ¬dy = 0 := by omega
  rcases hdx01 with rfl | rfl
  · -- dx = 0: the ur and dr readbacks vanish
    have hUR0 : ∀ t, unshiftUR 0 dy t = 0 := fun t => by unfold unshiftUR; simp
    have hDR0 : ∀ t, unshiftDR 0 dy t = 0 := fun t => by
      unfold unshiftDR
      rw [if_pos (Or.inl rfl)]
    rw [hUR0, hDR0]
    rcases hdy0 with rfl | hdy1
    · -- dy = 0: the dl readback vanishes too
      have hDL0 : ∀ t, unshiftDL 0 0 t = 0 := fun t => by unfold unshiftDL; simp
      rw [hDL0]
      have := hg (indexOf x y w)
      rw [hUR0, hDR0, hDL0] at this
      simpa [Nat.or_zero] using this
    · -- dy ≠ 0: the down cell is read back
      have hY1 : y + 1 < (if dy ≠ 0 then 1 else 0) + h := by split <;> omega
      rw [spriteNewGrid_closed_form data w h 0 dy x (y + 1) hXx hY1]
      rw [unshiftDL_or, unshiftDL_or, unshiftDL_or]
      simp only [apply_ite (unshiftDL 0 dy), unshiftDL_zero, hzDL00, hzDL10, hzDL11, ite_self,
        Nat.or_zero, Nat.zero_or, Nat.add_sub_cancel]
      rw [if_pos (show x < w ∧ 1 ≤ y + 1 ∧ y < h by omega)]
      have := hg (indexOf x y w)
      rw [hUR0, hDR0] at this
      simpa [Nat.or_zero] using this
  · -- dx = 1: the right cell is read back
    have hX1 : x + 1 < (if (1 : Nat) ≠ 0 then 1 else 0) + w := by split <;> omega
    rw [spriteNewGrid_closed_form data w h 1 dy (x + 1) y hX1 hYy]
    rw [unshiftUR_or, unshiftUR_or, unshiftUR_or]
    simp only [apply_ite (unshiftUR 1 dy), unshiftUR_zero, hzUR00, hzUR01, hzUR11, ite_self,
      Nat.or_zero, Nat.zero_or, Nat.add_sub_cancel]
    rw [if_pos (show 1 ≤ x + 1 ∧ x < w ∧ y < h by omega)]
    rcases hdy0 with rfl | hdy1
    · have hDL0 : ∀ t, unshiftDL 1 0 t = 0 := fun t => by unfold unshiftDL; simp
      have hDR0 : ∀ t, unshiftDR 1 0 t = 0 := fun t => by
        unfold unshiftDR
        rw [if_pos (Or.inr rfl)]
      rw [hDL0, hDR0]
      have := hg (indexOf x y w)
      rw [hDL0, hDR0] at this
      simpa [Nat.or_zero] using this
    · have hY1 : y + 1 < (if dy ≠ 0 then 1 else 0) + h := by split <;> omega
      rw [spriteNewGrid_closed_form data w h 1 dy x (y + 1) hXx hY1]
      rw [unshiftDL_or, unshiftDL_or, unshiftDL_or]
      simp only [apply_ite (unshiftDL 1 dy), unshiftDL_zero, hzDL00, hzDL10, hzDL11, ite_self,
        Nat.or_zero, Nat.zero_or, Nat.add_sub_cancel]
      rw [if_pos (show x < w ∧ 1 ≤ y + 1 ∧ y < h by omega)]
      rw [spriteNewGrid_closed_form data w h 1 dy (x + 1) (y + 1) hX1 hY1]
      rw [unshiftDR_or, unshiftDR_or, unshiftDR_or]
      simp only [apply_ite (unshiftDR 1 dy), unshiftDR_zero, hzDR00, hzDR10, hzDR01, ite_self,
        Nat.or_zero, Nat.zero_or, Nat.add_sub_cancel]
      rw [if_pos (show 1 ≤ x + 1 ∧ 1 ≤ y + 1 ∧ x < w ∧ y < h by omega)]
      exact hg (indexOf x y w)

end Ti

namespace Ti

theorem foldl_spriteNewStep_length (data : List ColoredCell) (w W dx dy : Nat) :
    ∀ (L : List (Nat × Nat)) (buf : List ColoredCell),
      (L.foldl (fun b p => spriteNewStep data w W dx dy b p.1 p.2) buf).length
        = buf.length := by
  intro L
  induction L with
  | nil => intro buf; rfl
  | cons p L ih =>
    intro buf
    simp only [List.foldl_cons]
    rw [ih, spriteNewStep_length]

theorem spriteNewGrid_length (data : List ColoredCell) (w h dx dy : Nat) :
    (spriteNewGrid data w h dx dy).length
      = cellLength ((if dx ≠ 0 then 1 else 0) + w) ((if dy ≠ 0 then 1 else 0) + h) := by
  rw [spriteNewGrid_eq_flat, foldl_spriteNewStep_length, List.length_replicate]

theorem spriteNew_offsets_getD (data : List ColoredCell) (w h pr o : Nat) (ho : o < 8) :
    (spriteNew data w h pr).offsets.getD o []
      = spriteNewGrid data w h (o % 2) (o / 2) := by
  unfold spriteNew
  rw [List.getD_eq_getElem?_getD]
  simp [List.getElem?_map, List.getElem?_range, ho]

theorem offsetSize_spriteNew (data : List ColoredCell) (w h pr o : Nat) :
    offsetSize (spriteNew data w h pr) o
      = ((if o % 2 ≠ 0 then 1 else 0) + w, (if o / 2 ≠ 0 then 1 else 0) + h) := by
  simp [offsetSize, offsetPx, spriteNew, PIXEL_WIDTH]

/-- Specialisation of the closed form at zero offset: grid 0 is the
unshifted base grid. -/
theorem spriteNewGrid_zero_id (data : List ColoredCell) (w h j : Nat) (hj : j < w * h) :
    ((spriteNewGrid data w h 0 0).getD j ⟨0, none⟩).cell
      = (data.getD j ⟨0, none⟩).cell := by
  have hw : 0 < w := by
    rcases Nat.eq_zero_or_pos w with hw0 | hw0
    · subst hw0; simp at hj
    · exact hw0
  have hX : j % w < w := Nat.mod_lt _ hw
  have hY : j / w < h := by
    rw [Nat.div_lt_iff_lt_mul hw, Nat.mul_comm]
    exact hj
  have hidx : indexOf (j % w) (j / w) w = j := by
    unfold indexOf
    calc j / w * w + j % w = w * (j / w) + j % w := by rw [Nat.mul_comm]
      _ = j := Nat.div_add_mod j w
  have hXw : j % w < (if (0 : Nat) ≠ 0 then 1 else 0) + w := by simpa using hX
  have hYh : j / w < (if (0 : Nat) ≠ 0 then 1 else 0) + h := by simpa using hY
  have hcf := spriteNewGrid_closed_form data w h 0 0 (j % w) (j / w) hXw hYh
  have hifz : (if (0 : Nat) ≠ 0 then 1 else 0) = 0 := by simp
  rw [hifz, Nat.zero_add, hidx] at hcf
  rw [hcf, if_pos (And.intro hX hY)]
  simp only [cellAt_ur_of_dx0, cellAt_dl_of_dy0, cellAt_dr_of_dx0, ite_self, Nat.or_zero]
  rfl

end Ti

namespace Ti

/-- C2: every sprite built by `Sprite::new(data, w, h, priority)` has its
offset grid 0 equal to the base data's cells; every offset grid `o < 8`
with components `(dx, dy) = (o % 2, o / 2)` is sized
`(w + (dx != 0)) x (h + (dy != 0))` and, indexed row-major by its own
width via `Sprite::index`, stores at `(X, Y)` exactly the OR of the
offset-split parts of the up-to-four surrounding source cells; and the
redistribution is lossless: shifting the four grid cells around source
`(x, y)` back by `(-dx, -dy)` reproduces each source cell exactly. -/
theorem spriteNew_offset_grids (data : List ColoredCell) (w h pr : Nat)
    (hlen : data.length = w * h) (hbits : ∀ cc ∈ data, cc.cell < 256) :
    (∀ j < w * h,
      (((spriteNew data w h pr).offsets.getD 0 []).getD j ⟨0, none⟩).cell
        = (data.getD j ⟨0, none⟩).cell)
    ∧ (∀ o < 8,
      ((spriteNew data w h pr).offsets.getD o []).length
        = cellLength (offsetSize (spriteNew data w h pr) o).1
            (offsetSize (spriteNew data w h pr) o).2)
    ∧ (∀ o < 8, ∀ X < (offsetSize (spriteNew data w h pr) o).1,
        ∀ Y < (offsetSize (spriteNew data w h pr) o).2,
      (((spriteNew data w h pr).offsets.getD o []).getD
          (spriteIndex (spriteNew data w h pr) X Y o) ⟨0, none⟩).cell
        = (if X < w ∧ Y < h
            then (withOffset ((data.getD (indexOf X Y w) ⟨0, none⟩).cell)
                (o % 2) (o / 2)).cellAt 0 0
            else 0)
          ||| (if 1 ≤ X ∧ X - 1 < w ∧ Y < h
              then (withOffset ((data.getD (indexOf (X - 1) Y w) ⟨0, none⟩).cell)
                  (o % 2) (o / 2)).cellAt 1 0
              else 0)
          ||| (if X < w ∧ 1 ≤ Y ∧ Y - 1 < h
              then (withOffset ((data.getD (indexOf X (Y - 1) w) ⟨0, none⟩).cell)
                  (o % 2) (o / 2)).cellAt 0 1
              else 0)
          ||| (if 1 ≤ X ∧ 1 ≤ Y ∧ X - 1 < w ∧ Y - 1 < h
              then (withOffset ((data.getD (indexOf (X - 1) (Y - 1) w) ⟨0, none⟩).cell)
                  (o % 2) (o / 2)).cellAt 1 1
              else 0))
    ∧ (∀ o < 8, ∀ x < w, ∀ y < h,
      unshiftUL (o % 2) (o / 2) (((spriteNew data w h pr).offsets.getD o []).getD
          (spriteIndex (spriteNew data w h pr) x y o) ⟨0, none⟩).cell
        ||| unshiftUR (o % 2) (o / 2) (((spriteNew data w h pr).offsets.getD o []).getD
            (spriteIndex (spriteNew data w h pr) (x + 1) y o) ⟨0, none⟩).cell
        ||| unshiftDL (o % 2) (o / 2) (((spriteNew data w h pr).offsets.getD o []).getD
            (spriteIndex (spriteNew data w h pr) x (y + 1) o) ⟨0, none⟩).cell
        ||| unshiftDR (o % 2) (o / 2) (((spriteNew data w h pr).offsets.getD o []).getD
            (spriteIndex (spriteNew data w h pr) (x + 1) (y + 1) o) ⟨0, none⟩).cell
        = (data.getD (indexOf x y w) ⟨0, none⟩).cell) := by
  have hidxo : ∀ X Y o : Nat, spriteIndex (spriteNew data w h pr) X Y o
      = indexOf X Y ((if o % 2 ≠ 0 then 1 else 0) + w) := by
    intro X Y o
    unfold spriteIndex
    rw [offsetSize_spriteNew]
  refine ⟨?_, ?_, ?_, ?_⟩
  · intro j hj
    rw [spriteNew_offsets_getD data w h pr 0 (by omega)]
    exact spriteNewGrid_zero_id data w h j hj
  · intro o ho
    rw [spriteNew_offsets_getD data w h pr o ho, spriteNewGrid_length,
      offsetSize_spriteNew]
  · intro o ho X hX Y hY
    rw [offsetSize_spriteNew] at hX hY
    rw [spriteNew_offsets_getD data w h pr o ho, hidxo]
    exact spriteNewGrid_closed_form data w h (o % 2) (o / 2) X Y hX hY
  · intro o ho x hx y hy
    rw [spriteNew_offsets_getD data w h pr o ho, hidxo, hidxo, hidxo, hidxo]
    exact spriteNewGrid_reconstruct data w h (o % 2) (o / 2) x y
      (Nat.mod_lt o (by omega)) (by omega) hbits hx hy

end Ti

namespace Ti

/-- Witness for C2 on a 1-by-1 sprite with the single cell `1`: offset
grid 0 holds the base cell back. -/
theorem spriteNew_offset_grids_witness :
    ([(⟨1, none⟩ : ColoredCell)]).length = 1 * 1
    ∧ (∀ cc ∈ [(⟨1, none⟩ : ColoredCell)], cc.cell < 256)
    ∧ (((spriteNew [⟨1, none⟩] 1 1 0).offsets.getD 0 []).getD 0 ⟨0, none⟩).cell = 1 :=
  ⟨rfl, by decide,
    ((spriteNew_offset_grids [⟨1, none⟩] 1 1 0 rfl (by decide)).1 0 (by decide)).trans rfl⟩

end Ti
